import Mathlib

/-!
Verification development for the pet-care-assistant web client
(`Frontend-AI`).  The definitions below are shallow embeddings of the
TypeScript source: the data model from `src/types/index.ts`, the zustand
store from `src/stores/chatStore.ts`, the message composer's
`handleSubmit` (MessageInput), the message editor's `handleSave`
(`MessageItem.tsx`), the message-history rendering (`MessageList.tsx`),
the temperature controls (`ChatSettings.tsx`, `ComposerControls`), and
the `audioBufferToWav` voice-recording encoder.

JavaScript numbers holding integral values (ids, sizes, counts,
timestamps) are embedded as `Int`/`Nat`; fractional values (the
temperature setting, audio samples) are embedded as `ℚ`, abstracting
IEEE-754 rounding to exact rational arithmetic.  Nullable fields are
`Option`s; a `Partial<T>` update is a structure of `Option`-wrapped
fields merged with JS spread semantics.  Fallible API calls are
modelled by `Option`-valued outcomes supplied as parameters.
-/

namespace PetCare

/-! ## Data model (`src/types/index.ts`) -/

/-- Union type of `FileMetadata.file_type`. -/
inductive FileType where
  | image
  | video
  | audio
  | document
deriving DecidableEq, Repr

/-- Union type `MessageRole`. -/
inductive MessageRole where
  | user
  | assistant
deriving DecidableEq, Repr

/-- Union type `MessageType`. -/
inductive MessageType where
  | text
  | image
  | video
  | audio
  | document
  | mixed
deriving DecidableEq, Repr

/-- Coercion used when a `FileMetadata['file_type']` value is stored in a
`message_type` field (the former's variants are a subset of the latter's). -/
def FileType.toMessageType : FileType → MessageType
  | .image => .image
  | .video => .video
  | .audio => .audio
  | .document => .document

/-- DTO `FileMetadata`. -/
structure FileMetadata where
  file_id : String
  filename : String
  file_type : FileType
  file_size : Nat
  mime_type : String
  url : Option String := none
deriving DecidableEq, Repr

/-- DTO `ChatMessage` (= `Message` plus the optional client-side flags).
`metadata_json` is an opaque JSON object; it is embedded as a string. -/
structure ChatMessage where
  id : Int
  chat_id : Int
  role : MessageRole
  content : String
  message_type : MessageType
  files : Option (List FileMetadata)
  metadata_json : Option String
  processing_time_ms : Option Int
  created_at : String
  updated_at : String
  is_deleted : Bool
  isEditing : Option Bool := none
  isStreaming : Option Bool := none
deriving DecidableEq, Repr

/-- DTO `Chat`. -/
structure Chat where
  id : Int
  user_id : Int
  title : String
  description : Option String
  web_search_enabled : Bool
  message_limit : Int
  temperature : ℚ
  gigachat_model : String
  image_generation_enabled : Bool
  voice_response_enabled : Bool
  max_tokens : Option Int
  created_at : String
  updated_at : String
  message_count : Option Int := none
  last_message_at : Option (Option String) := none
deriving DecidableEq, Repr

/-- Shape `Partial<ChatMessage>`: each field optionally present; a present field
overrides the message's field under JS spread `{ ...msg, ...updates }`. -/
structure MessageUpdate where
  id : Option Int := none
  chat_id : Option Int := none
  role : Option MessageRole := none
  content : Option String := none
  message_type : Option MessageType := none
  files : Option (Option (List FileMetadata)) := none
  metadata_json : Option (Option String) := none
  processing_time_ms : Option (Option Int) := none
  created_at : Option String := none
  updated_at : Option String := none
  is_deleted : Option Bool := none
  isEditing : Option (Option Bool) := none
  isStreaming : Option (Option Bool) := none
deriving DecidableEq, Repr

/-- JS spread `{ ...msg, ...updates }` for a message. -/
def applyMessageUpdate (m : ChatMessage) (u : MessageUpdate) : ChatMessage where
  id := u.id.getD m.id
  chat_id := u.chat_id.getD m.chat_id
  role := u.role.getD m.role
  content := u.content.getD m.content
  message_type := u.message_type.getD m.message_type
  files := u.files.getD m.files
  metadata_json := u.metadata_json.getD m.metadata_json
  processing_time_ms := u.processing_time_ms.getD m.processing_time_ms
  created_at := u.created_at.getD m.created_at
  updated_at := u.updated_at.getD m.updated_at
  is_deleted := u.is_deleted.getD m.is_deleted
  isEditing := u.isEditing.getD m.isEditing
  isStreaming := u.isStreaming.getD m.isStreaming

/-- Shape `Partial<Chat>` (the type of `ChatUpdateRequest` / `updateChat`'s
second argument). -/
structure ChatUpdate where
  id : Option Int := none
  user_id : Option Int := none
  title : Option String := none
  description : Option (Option String) := none
  web_search_enabled : Option Bool := none
  message_limit : Option Int := none
  temperature : Option ℚ := none
  gigachat_model : Option String := none
  image_generation_enabled : Option Bool := none
  voice_response_enabled : Option Bool := none
  max_tokens : Option (Option Int) := none
  created_at : Option String := none
  updated_at : Option String := none
  message_count : Option (Option Int) := none
  last_message_at : Option (Option (Option String)) := none
deriving DecidableEq, Repr

/-- JS spread `{ ...chat, ...updates }` for a chat. -/
def applyChatUpdate (c : Chat) (u : ChatUpdate) : Chat where
  id := u.id.getD c.id
  user_id := u.user_id.getD c.user_id
  title := u.title.getD c.title
  description := u.description.getD c.description
  web_search_enabled := u.web_search_enabled.getD c.web_search_enabled
  message_limit := u.message_limit.getD c.message_limit
  temperature := u.temperature.getD c.temperature
  gigachat_model := u.gigachat_model.getD c.gigachat_model
  image_generation_enabled := u.image_generation_enabled.getD c.image_generation_enabled
  voice_response_enabled := u.voice_response_enabled.getD c.voice_response_enabled
  max_tokens := u.max_tokens.getD c.max_tokens
  created_at := u.created_at.getD c.created_at
  updated_at := u.updated_at.getD c.updated_at
  message_count := u.message_count.getD c.message_count
  last_message_at := u.last_message_at.getD c.last_message_at

/-! ## The chat store (`src/stores/chatStore.ts`) -/

/-- The zustand `ChatState` (data fields only; the actions are the
functions below). -/
structure ChatState where
  chats : List Chat
  currentChat : Option Chat
  messages : List ChatMessage
  isLoadingChats : Bool
  isLoadingMessages : Bool
  isSending : Bool
deriving DecidableEq, Repr

namespace Store

/-- Action `setChats: (chats) => set({ chats })` -/
def setChats (chats : List Chat) (s : ChatState) : ChatState :=
  { s with chats := chats }

/-- Action `addChat: (chat) => set((state) => ({ chats: [chat, ...state.chats] }))` -/
def addChat (chat : Chat) (s : ChatState) : ChatState :=
  { s with chats := chat :: s.chats }

/-- Test `state.currentChat?.id === chatId` (optional chaining: `undefined === chatId`
is false when `currentChat` is null). -/
def currentChatIdIs (oc : Option Chat) (chatId : Int) : Bool :=
  match oc with
  | some c => c.id == chatId
  | none => false

/-- Action `updateChat: (chatId, updates) => set((state) => ({ chats: state.chats.map(...),
currentChat: state.currentChat?.id === chatId ? { ...state.currentChat, ...updates } :
state.currentChat }))` -/
def updateChat (chatId : Int) (updates : ChatUpdate) (s : ChatState) : ChatState :=
  { s with
    chats := s.chats.map (fun chat => if chat.id == chatId then applyChatUpdate chat updates else chat)
    currentChat :=
      match s.currentChat with
      | some c => if c.id == chatId then some (applyChatUpdate c updates) else some c
      | none => none }

/-- Action `removeChat: (chatId) => set((state) => ({ chats: state.chats.filter(...),
currentChat: ..., messages: ... }))` -/
def removeChat (chatId : Int) (s : ChatState) : ChatState :=
  { s with
    chats := s.chats.filter (fun chat => chat.id != chatId)
    currentChat := if currentChatIdIs s.currentChat chatId then none else s.currentChat
    messages := if currentChatIdIs s.currentChat chatId then [] else s.messages }

/-- Action `setCurrentChat: (chat) => set({ currentChat: chat })` -/
def setCurrentChat (chat : Option Chat) (s : ChatState) : ChatState :=
  { s with currentChat := chat }

/-- Action `setMessages: (messages) => set({ messages })` -/
def setMessages (messages : List ChatMessage) (s : ChatState) : ChatState :=
  { s with messages := messages }

/-- Action `addMessage: (message) => set((state) => ({ messages: [...state.messages, message] }))` -/
def addMessage (message : ChatMessage) (s : ChatState) : ChatState :=
  { s with messages := s.messages ++ [message] }

/-- Action `updateMessage: (messageId, updates) => set((state) => ({ messages:
state.messages.map((msg) => (msg.id === messageId ? { ...msg, ...updates } : msg)) }))` -/
def updateMessage (messageId : Int) (updates : MessageUpdate) (s : ChatState) : ChatState :=
  { s with
    messages := s.messages.map (fun msg => if msg.id == messageId then applyMessageUpdate msg updates else msg) }

/-- Action `removeMessage: (messageId) => set((state) => ({ messages:
state.messages.filter((msg) => msg.id !== messageId) }))` -/
def removeMessage (messageId : Int) (s : ChatState) : ChatState :=
  { s with messages := s.messages.filter (fun msg => msg.id != messageId) }

/-- Action `setSending: (isSending) => set({ isSending })` -/
def setSending (b : Bool) (s : ChatState) : ChatState :=
  { s with isSending := b }

/-- Action `setLoadingMessages: (isLoading) => set({ isLoadingMessages: isLoading })` -/
def setLoadingMessages (b : Bool) (s : ChatState) : ChatState :=
  { s with isLoadingMessages := b }

end Store

/-! ## Message history rendering (`MessageList.tsx`, `MessageItem.tsx`) -/

/-- Possible renderings of the `MessageList` component (after the
loading branch): the loading placeholder, the empty-state, or the list
of rendered messages. -/
inductive MessageListView where
  | loading
  | empty
  | items (msgs : List ChatMessage)
deriving DecidableEq, Repr

/-- Rendering of `MessageList`: `visibleMessages = messages.filter((m) =>
!m.is_deleted)`; the loading state when `isLoadingMessages`, the
empty-state when `visibleMessages.length === 0`, otherwise one
`MessageItem` per visible message. -/
def renderMessageList (isLoadingMessages : Bool) (messages : List ChatMessage) : MessageListView :=
  let visibleMessages := messages.filter (fun m => !m.is_deleted)
  if isLoadingMessages then .loading
  else if visibleMessages.isEmpty then .empty
  else .items visibleMessages

/-- Rendering of `MessageItem`: `if (message.is_deleted) return null`,
otherwise the message is rendered. -/
def renderMessageItem (message : ChatMessage) : Option ChatMessage :=
  if message.is_deleted then none else some message

/-! ## Temperature controls (`ChatSettings.tsx`, both `ComposerControls`
variants in `App.tsx`) -/

/-- Temperature onChange handler of `ChatSettings.tsx` (line 149):
`Math.min(1, Math.max(0, parseFloat(e.target.value)))`. -/
def chatSettingsTemperature (v : ℚ) : ℚ := min 1 (max 0 v)

/-- Temperature onChange handler of the first `ComposerControls` variant
(`App.tsx` line 214): `Math.min(1, Math.max(0, parseFloat(e.target.value)))`. -/
def composerTemperatureClamped (v : ℚ) : ℚ := min 1 (max 0 v)

/-- Temperature onChange handler of the second `ComposerControls` variant
(`App.tsx` line 373): `const value = parseFloat(e.target.value)` - the
parsed value is stored and persisted with no clamping. -/
def composerTemperatureRaw (v : ℚ) : ℚ := v

/-- Value of a `range` input at tick `k`: `min + k * step`.  The second
`ComposerControls` temperature slider has `min={0} max={2} step={0.1}`,
so its possible values are `rangeInputValue 0 (1/10) k` for `k ≤ 20`. -/
def rangeInputValue (mn step : ℚ) (k : Nat) : ℚ := mn + k * step

/-! ## Temporary (optimistic) message ids (`MessageInput`) -/

/-- Memoized `nextTempId = useMemo(() => Date.now() * -1, [])`, with
`Date.now()` supplied as a parameter. -/
def nextTempId (now : Nat) : Int := -(now : Int)

/-- Id of the optimistic message: `nextTempId + Math.floor(Math.random() * 1000)`,
with the random draw `offset < 1000` supplied as a parameter. -/
def mkTempId (now offset : Nat) : Int := nextTempId now + offset

/-! ## The composer submission (`handleSubmit` of `MessageInput`,
`src/unnamed/part_001` lines 480-550)

The async control flow is embedded as an explicit trace of events: store
mutations, API-call starts and API-call returns.  The outcome of each
API call (success payload or thrown error) is a parameter
(`ApiBehavior`), since the backend is an external collaborator. -/

/-- Result payload of `apiClient.uploadFile`. -/
structure UploadResponse where
  file_id : String
  url : String
deriving DecidableEq, Repr

/-- An attached file as held in the composer's `files` state
(second variant: `{ file: File; previewUrl: string }`). -/
structure ComposerFile where
  name : String
  lastModified : Int
  mimeType : String
  size : Nat
  previewUrl : String
deriving DecidableEq, Repr

/-- Outcomes of the API calls a submission may issue: the `k`-th
`uploadFile` call, the `sendMessage` call and the `getChatMessages`
refresh; `none` models a thrown/rejected call. -/
structure ApiBehavior where
  upload : Nat → Option UploadResponse
  send : Option ChatMessage
  refresh : Option (List ChatMessage)

/-- API endpoints invoked by a submission (uploads tagged by their
position in the attached-file list). -/
inductive ApiKind where
  | uploadFile (k : Nat)
  | sendMessage
  | getChatMessages
deriving DecidableEq, Repr

/-- Store mutations a submission performs. -/
inductive StoreMut where
  | setSending (b : Bool)
  | addMessage (m : ChatMessage)
  | updateMessage (id : Int) (u : MessageUpdate)
  | removeMessage (id : Int)
  | setMessages (ms : List ChatMessage)
deriving DecidableEq, Repr

/-- One step of a submission: a store mutation, an API call being
issued, or an API call returning (`ok = false` for a rejection). -/
inductive Event where
  | mut (m : StoreMut)
  | call (k : ApiKind)
  | ret (k : ApiKind) (ok : Bool)
deriving DecidableEq, Repr

/-- Dispatch of a store mutation to the store actions. -/
def applyMut (s : ChatState) : StoreMut → ChatState
  | .setSending b => Store.setSending b s
  | .addMessage m => Store.addMessage m s
  | .updateMessage id u => Store.updateMessage id u s
  | .removeMessage id => Store.removeMessage id s
  | .setMessages ms => Store.setMessages ms s

/-- Effect of one event on the store (API events do not touch it). -/
def applyEvent (s : ChatState) : Event → ChatState
  | .mut m => applyMut s m
  | .call _ => s
  | .ret _ _ => s

/-- Store state after a trace of events. -/
def runTrace (s : ChatState) (t : List Event) : ChatState :=
  t.foldl applyEvent s

/-- Helper `inferFileType` of `MessageInput`. -/
def inferFileType (mime : String) : FileType :=
  if mime.startsWith "image/" then .image
  else if mime.startsWith "video/" then .video
  else if mime.startsWith "audio/" then .audio
  else .document

/-- Optimistic `FileMetadata` built for an attached file:
`file_id: temp-${file.name}-${file.lastModified}` with the preview URL. -/
def optimisticFileOf (f : ComposerFile) : FileMetadata where
  file_id := "temp-" ++ f.name ++ "-" ++ toString f.lastModified
  filename := f.name
  file_type := inferFileType f.mimeType
  file_size := f.size
  mime_type := f.mimeType
  url := some f.previewUrl

/-- The optimistic user message `optimisticUser` a submission inserts. -/
def optimisticUserOf (chatId tempId : Int) (content : String)
    (files : List ComposerFile) (nowIso : String) : ChatMessage :=
  let optimisticFiles := files.map optimisticFileOf
  { id := tempId
    chat_id := chatId
    role := .user
    content := content.trim
    message_type :=
      match optimisticFiles with
      | [] => .text
      | f0 :: _ => (inferFileType f0.mime_type).toMessageType
    files := match optimisticFiles with | [] => none | _ => some optimisticFiles
    metadata_json := none
    processing_time_ms := none
    created_at := nowIso
    updated_at := nowIso
    is_deleted := false }

/-- Metadata recorded for a successfully uploaded file
(`uploadedMetas.push({...})`). -/
def uploadedMetaOf (f : ComposerFile) (resp : UploadResponse) : FileMetadata where
  file_id := resp.file_id
  filename := f.name
  file_type := inferFileType f.mimeType
  file_size := f.size
  mime_type := f.mimeType
  url := some resp.url

/-- The `for (const { file } of files) { await apiClient.uploadFile(file) ... }`
loop: events of the uploads issued, and on success the accumulated
`uploadedMetas` and `fileIds`; `none` when an upload throws (the loop
stops at the first rejection and the exception propagates). -/
def uploadPhase (api : ApiBehavior) :
    List ComposerFile → Nat → List FileMetadata → List String →
    List Event × Option (List FileMetadata × List String)
  | [], _, uploadedMetas, fileIds => ([], some (uploadedMetas, fileIds))
  | f :: rest, k, uploadedMetas, fileIds =>
    match api.upload k with
    | none => ([.call (.uploadFile k), .ret (.uploadFile k) false], none)
    | some resp =>
      let next := uploadPhase api rest (k + 1)
        (uploadedMetas ++ [uploadedMetaOf f resp]) (fileIds ++ [resp.file_id])
      (Event.call (.uploadFile k) :: Event.ret (.uploadFile k) true :: next.1, next.2)

/-- Event trace of one `handleSubmit` run: the guard
`if (!content.trim() && files.length === 0) return`, then
`setSending(true)`, `addMessage(optimisticUser)`, the upload loop,
`sendMessage`, and on success `updateMessage(tempId, {files})`,
`addMessage(assistantMessage)`, the `getChatMessages` refresh and
`setMessages(refreshed)`; any rejection is caught by
`removeMessage(tempId)`, and `setSending(false)` runs in `finally`. -/
def handleSubmitTrace (api : ApiBehavior) (chatId : Int) (content : String)
    (files : List ComposerFile) (tempId : Int) (nowIso : String) : List Event :=
  if content.trim = "" ∧ files = [] then []
  else
    Event.mut (.setSending true) ::
    Event.mut (.addMessage (optimisticUserOf chatId tempId content files nowIso)) ::
    (let up := uploadPhase api files 0 [] []
     up.1 ++
     match up.2 with
     | none => [Event.mut (.removeMessage tempId), Event.mut (.setSending false)]
     | some (uploadedMetas, _fileIds) =>
       Event.call .sendMessage ::
       match api.send with
       | none =>
         [Event.ret .sendMessage false, Event.mut (.removeMessage tempId),
          Event.mut (.setSending false)]
       | some assistantMessage =>
         Event.ret .sendMessage true ::
         Event.mut (.updateMessage tempId
           { files := some (match uploadedMetas with | [] => none | _ => some uploadedMetas) }) ::
         Event.mut (.addMessage assistantMessage) ::
         Event.call .getChatMessages ::
         match api.refresh with
         | none =>
           [Event.ret .getChatMessages false, Event.mut (.removeMessage tempId),
            Event.mut (.setSending false)]
         | some refreshed =>
           [Event.ret .getChatMessages true, Event.mut (.setMessages refreshed),
            Event.mut (.setSending false)])

/-- Store state after one `handleSubmit` run. -/
def handleSubmitRun (api : ApiBehavior) (chatId : Int) (content : String)
    (files : List ComposerFile) (tempId : Int) (nowIso : String)
    (s : ChatState) : ChatState :=
  runTrace s (handleSubmitTrace api chatId content files tempId nowIso)

/-! ## Saving an edited message (`handleSave` of `MessageItem.tsx`) -/

/-- Check `isSameFiles`: same length and every original file id is kept. -/
def sameFilesCheck (originalFiles editedFiles : List FileMetadata) : Bool :=
  originalFiles.length == editedFiles.length &&
  originalFiles.all (fun file => editedFiles.any (fun edited => edited.file_id == file.file_id))

/-- Store update applied to the edited message:
`{ content: trimmed, files: editedFiles, isEditing: false }`. -/
def editSaveUpdate (trimmed : String) (editedFiles : List FileMetadata) : MessageUpdate :=
  { content := some trimmed, files := some (some editedFiles), isEditing := some (some false) }

/-- Store update marking a subsequent message `{ is_deleted: true }`. -/
def markDeletedUpdate : MessageUpdate :=
  { is_deleted := some true }

/-- Effect of `handleSave` on the store.  `apiResult` is the outcome of
`apiClient.updateMessage` (`none` = rejection, caught with no store
mutation); `deleteFile` calls do not touch the store.  JS
`findIndex` yields `-1` and `slice(messageIndex + 1)` is skipped when the
id is absent; `List.findIdx` then yields `s.messages.length`, so
`drop (messageIndex + 1)` is `[]` - the same behaviour. -/
def handleSave (s : ChatState) (message : ChatMessage) (editedContent : String)
    (editedFiles : List FileMetadata) (apiResult : Option ChatMessage) : ChatState :=
  let trimmed := editedContent.trim
  if trimmed = "" ∧ editedFiles = [] then s
  else if trimmed = message.content ∧ sameFilesCheck (message.files.getD []) editedFiles then s
  else
    match apiResult with
    | none => s
    | some newAssistantMessage =>
      let s1 := Store.updateMessage message.id (editSaveUpdate trimmed editedFiles) s
      let messageIndex := s.messages.findIdx (fun m => m.id == message.id)
      let subsequentMessages := s.messages.drop (messageIndex + 1)
      let s2 := subsequentMessages.foldl
        (fun acc m => Store.updateMessage m.id markDeletedUpdate acc) s1
      Store.addMessage newAssistantMessage s2

/-! ## WAV encoding (`audioBufferToWav`, `src/unnamed/part_001` lines 311-367)

The `ArrayBuffer` is written once, left to right, through a `DataView`
with a strictly increasing offset, so it is embedded as a byte list
built by concatenation.  Channel samples are `ℚ` (exact stand-ins for
the `Float32Array` values). -/

/-- Web-audio `AudioBuffer` as consumed by `audioBufferToWav`:
`channelData channel i` is `getChannelData(channel)[i]`. -/
structure AudioBuffer where
  numberOfChannels : Nat
  sampleRate : Nat
  length : Nat
  channelData : Nat → Nat → ℚ

/-- Bytes of `view.setUint16(offset, v, true)` (little endian, wraps mod 2^16). -/
def u16le (v : Nat) : List Nat := [v % 256, v / 2 ^ 8 % 256]

/-- Bytes of `view.setUint32(offset, v, true)` (little endian, wraps mod 2^32). -/
def u32le (v : Nat) : List Nat := [v % 256, v / 2 ^ 8 % 256, v / 2 ^ 16 % 256, v / 2 ^ 24 % 256]

/-- Bytes of `writeString(str)`: one `setUint8(offset + i, str.charCodeAt(i))`
per character. -/
def asciiBytes (s : String) : List Nat := s.toList.map Char.toNat

/-- JS number-to-integer conversion used by `setInt16` (`ToInt16`):
truncation toward zero. -/
def jsTruncToZero (q : ℚ) : Int := if 0 ≤ q then ⌊q⌋ else ⌈q⌉

/-- Bytes of `view.setInt16(offset, v, true)`: two's-complement wrap to
16 bits, little endian. -/
def int16le (v : Int) : List Nat := u16le ((v % 65536).toNat)

/-- Sample conversion of the encoder's inner loop:
`sample = Math.max(-1, Math.min(1, channelData[channel][i]))` then
`sample < 0 ? sample * 0x8000 : sample * 0x7fff` as the `setInt16` argument. -/
def sampleToPcm16 (sample : ℚ) : Int :=
  let s := max (-1) (min 1 sample)
  jsTruncToZero (if s < 0 then s * 32768 else s * 32767)

/-- The 44 header bytes written before the sample data (`format = 1`,
`bitDepth = 16`, `bytesPerSample = 2`, `blockAlign = numChannels * 2`,
`dataLength = length * blockAlign`). -/
def wavHeader (numChannels sampleRate len : Nat) : List Nat :=
  let blockAlign := numChannels * 2
  let dataLength := len * blockAlign
  asciiBytes "RIFF" ++ u32le (36 + dataLength) ++
  asciiBytes "WAVE" ++ asciiBytes "fmt " ++
  u32le 16 ++ u16le 1 ++ u16le numChannels ++
  u32le sampleRate ++ u32le (sampleRate * blockAlign) ++
  u16le blockAlign ++ u16le 16 ++
  asciiBytes "data" ++ u32le dataLength

/-- Byte contents of the `ArrayBuffer` returned by `audioBufferToWav`:
header, then for each frame `i` and each channel the PCM16 sample. -/
def audioBufferToWav (ab : AudioBuffer) : List Nat :=
  wavHeader ab.numberOfChannels ab.sampleRate ab.length ++
  (List.range ab.length).flatMap (fun i =>
    (List.range ab.numberOfChannels).flatMap (fun channel =>
      int16le (sampleToPcm16 (ab.channelData channel i))))

/-! ## Concrete sample data (used by the witness theorems) -/

/-- A concrete chat. -/
def sampleChat (i : Int) : Chat where
  id := i
  user_id := 1
  title := "chat"
  description := none
  web_search_enabled := false
  message_limit := 10
  temperature := 1
  gigachat_model := "GigaChat"
  image_generation_enabled := false
  voice_response_enabled := false
  max_tokens := none
  created_at := "t0"
  updated_at := "t0"

/-- A concrete message. -/
def sampleMessage (i : Int) : ChatMessage where
  id := i
  chat_id := 1
  role := .user
  content := "hello"
  message_type := .text
  files := none
  metadata_json := none
  processing_time_ms := none
  created_at := "t0"
  updated_at := "t0"
  is_deleted := false

/-- A concrete store state with two chats and two messages. -/
def sampleState : ChatState where
  chats := [sampleChat 1, sampleChat 2]
  currentChat := some (sampleChat 1)
  messages := [sampleMessage 1, sampleMessage 2]
  isLoadingChats := false
  isLoadingMessages := false
  isSending := false

/-- A concrete assistant reply. -/
def sampleAssistant : ChatMessage :=
  { sampleMessage 3 with role := .assistant }

/-- API outcomes where everything succeeds. -/
def sampleApiOk : ApiBehavior where
  upload := fun _ => some { file_id := "f1", url := "u1" }
  send := some sampleAssistant
  refresh := some [sampleMessage 1, sampleMessage 2, sampleMessage 4]

/-- API outcomes where `sendMessage` is rejected. -/
def sampleApiSendFail : ApiBehavior where
  upload := fun _ => some { file_id := "f1", url := "u1" }
  send := none
  refresh := none

/-- A concrete file-metadata record. -/
def sampleFileMeta : FileMetadata where
  file_id := "f9"
  filename := "doc.txt"
  file_type := .document
  file_size := 1
  mime_type := "text/plain"

/-- A concrete attached file. -/
def sampleFile : ComposerFile where
  name := "a.png"
  lastModified := 5
  mimeType := "image/png"
  size := 3
  previewUrl := "blob:1"

/-- A concrete audio buffer (one channel, one frame). -/
def sampleAudio : AudioBuffer where
  numberOfChannels := 1
  sampleRate := 8000
  length := 1
  channelData := fun _ _ => 1/2

/-! ## Predicates used in the claims -/

/-- Consistency between `currentChat` and the `chats` list: a non-null
current chat whose id occurs in the list is field-for-field equal to
that entry. -/
def CurrentChatConsistent (s : ChatState) : Prop :=
  ∀ c e, s.currentChat = some c → e ∈ s.chats → e.id = c.id → e = c

/-- Event matcher: any store mutation. -/
def isStoreMut : Event → Bool
  | .mut _ => true
  | _ => false

/-- Event matcher: an `addMessage` store mutation. -/
def isAddMessageMut : Event → Bool
  | .mut (.addMessage _) => true
  | _ => false

/-- Event matcher: any API return. -/
def isApiReturn : Event → Bool
  | .ret _ _ => true
  | _ => false

/-- Event matcher: any `uploadFile` call. -/
def isUploadCall : Event → Bool
  | .call (.uploadFile _) => true
  | _ => false

/-- Event matcher: the `uploadFile` call for the file at position `k`. -/
def isUploadCallAt (k : Nat) : Event → Bool
  | .call (.uploadFile j) => j == k
  | _ => false

/-- Event matcher: a `sendMessage` call. -/
def isSendCall : Event → Bool
  | .call .sendMessage => true
  | _ => false

/-- Chat used by the `updateChat` counterexample: distinguishable from
`sampleChat 2` in a non-id field. -/
def cexChatB : Chat :=
  { sampleChat 2 with title := "other" }

/-- Store state of the `updateChat` counterexample. -/
def cexState : ChatState where
  chats := [sampleChat 1, cexChatB]
  currentChat := some (sampleChat 1)
  messages := []
  isLoadingChats := false
  isLoadingMessages := false
  isSending := false

/-- The id-changing partial update of the `updateChat` counterexample. -/
def cexUpdate : ChatUpdate :=
  { id := some 2 }

/-! ## Helper lemmas -/

/-- Boolean disequality agrees with decidable propositional disequality. -/
theorem bne_eq_decide_ne {α} [BEq α] [LawfulBEq α] [DecidableEq α] (a b : α) :
    (a != b) = decide (a ≠ b) := by
  by_cases h : a = b <;> simp [h]

/-- A message list all of whose ids differ from `tid` is unchanged by the
`removeMessage` filter. -/
theorem filter_ne_id_of_fresh (ms : List ChatMessage) (tid : Int)
    (h : ∀ m ∈ ms, m.id ≠ tid) :
    ms.filter (fun m => m.id != tid) = ms :=
  List.filter_eq_self.mpr fun m hm => by
    have := h m hm
    simp [bne_eq_decide_ne, this]

/-- Merging an update whose `id` field is absent preserves a chat's id. -/
theorem applyChatUpdate_id_none (c : Chat) (u : ChatUpdate) (h : u.id = none) :
    (applyChatUpdate c u).id = c.id := by
  simp [applyChatUpdate, h]

/-- Filtering by the negated soft-delete flag agrees with the
propositional `is_deleted = false` filter. -/
theorem filter_not_deleted (messages : List ChatMessage) :
    messages.filter (fun m => !m.is_deleted)
      = messages.filter (fun m => m.is_deleted = false) :=
  List.filter_congr fun m _ => by cases h : m.is_deleted <;> simp [h]

/-- Unfolding `runTrace` one event at a time. -/
theorem runTrace_cons (s : ChatState) (e : Event) (t : List Event) :
    runTrace s (e :: t) = runTrace (applyEvent s e) t := rfl

/-- Splitting `runTrace` over concatenated traces. -/
theorem runTrace_append (s : ChatState) (t₁ t₂ : List Event) :
    runTrace s (t₁ ++ t₂) = runTrace (runTrace s t₁) t₂ :=
  List.foldl_append _ _ _ _

/-- The upload loop issues only API events, so it leaves the store
untouched. -/
theorem runTrace_uploadPhase (api : ApiBehavior) (files : List ComposerFile)
    (k : Nat) (metas : List FileMetadata) (ids : List String) (s : ChatState) :
    runTrace s (uploadPhase api files k metas ids).1 = s := by
  induction files generalizing k metas ids s with
  | nil => rfl
  | cons f rest ih =>
    rcases hk : api.upload k with _ | resp
    · simp only [uploadPhase, hk]
      rfl
    · simp only [uploadPhase, hk]
      exact ih (k + 1) _ _ s

/-- The upload loop fails exactly when some upload within the remaining
file count is rejected. -/
theorem uploadPhase_isNone_iff (api : ApiBehavior) (files : List ComposerFile)
    (k : Nat) (metas : List FileMetadata) (ids : List String) :
    (uploadPhase api files k metas ids).2 = none
      ↔ ∃ j < files.length, api.upload (k + j) = none := by
  induction files generalizing k metas ids with
  | nil => simp [uploadPhase]
  | cons f rest ih =>
    rcases hk : api.upload k with _ | resp
    · simp only [uploadPhase, hk]
      exact iff_of_true trivial ⟨0, by simp, by simpa using hk⟩
    · simp only [uploadPhase, hk]
      rw [ih]
      constructor
      · rintro ⟨j, hj, hnone⟩
        exact ⟨j + 1, by simpa using hj, by rw [show k + 1 + j = k + (j + 1) by omega] at hnone; exact hnone⟩
      · rintro ⟨j, hj, hnone⟩
        cases j with
        | zero =>
          rw [Nat.add_zero] at hnone
          rw [hnone] at hk
          cases hk
        | succ j' =>
          exact ⟨j', by simp at hj; omega,
            by rw [show k + 1 + j' = k + (j' + 1) by omega]; exact hnone⟩

/-- Core of the failure-path rollback: adding the optimistic message and
then filtering its id away restores the original message list. -/
theorem rollback_core (s : ChatState) (opt : ChatMessage) (tid : Int)
    (hopt : opt.id = tid) (hid : ∀ m ∈ s.messages, m.id ≠ tid) :
    (Store.removeMessage tid (Store.addMessage opt (Store.setSending true s))).messages
      = s.messages := by
  show ((s.messages ++ [opt]).filter (fun m => m.id != tid)) = s.messages
  rw [List.filter_append, filter_ne_id_of_fresh _ _ hid]
  have h2 : [opt].filter (fun m => m.id != tid) = [] := by
    simp [List.filter, hopt]
  rw [h2, List.append_nil]

/-! ## Claim theorems -/

/-- C9: `removeChat id` removes exactly the chats with that id (keeping
the others in order); when the current chat has that id, `currentChat`
becomes `none` and the message list empties, and otherwise both are
unchanged. -/
theorem removeChat_spec (chatId : Int) (s : ChatState) :
    (Store.removeChat chatId s).chats = s.chats.filter (fun c => c.id ≠ chatId)
    ∧ (∀ c ∈ (Store.removeChat chatId s).chats, c.id ≠ chatId)
    ∧ (∀ c, s.currentChat = some c → c.id = chatId →
        (Store.removeChat chatId s).currentChat = none
        ∧ (Store.removeChat chatId s).messages = [])
    ∧ (∀ c, s.currentChat = some c → c.id ≠ chatId →
        (Store.removeChat chatId s).currentChat = some c
        ∧ (Store.removeChat chatId s).messages = s.messages)
    ∧ (s.currentChat = none →
        (Store.removeChat chatId s).currentChat = none
        ∧ (Store.removeChat chatId s).messages = s.messages) := by
  have hfilter : s.chats.filter (fun c => c.id != chatId)
      = s.chats.filter (fun c => c.id ≠ chatId) :=
    List.filter_congr fun c _ => by rw [bne_eq_decide_ne]
  refine ⟨?_, ?_, ?_, ?_, ?_⟩
  · simp [Store.removeChat, hfilter]
  · intro c hc
    simp only [Store.removeChat, hfilter] at hc
    exact of_decide_eq_true (List.mem_filter.mp hc).2
  · intro c hc hid
    constructor <;> simp [Store.removeChat, Store.currentChatIdIs, hc, hid]
  · intro c hc hid
    constructor <;> simp [Store.removeChat, Store.currentChatIdIs, hc, hid]
  · intro hc
    constructor <;> simp [Store.removeChat, Store.currentChatIdIs, hc]

/-- Witness for C9 at a concrete state whose current chat is removed. -/
theorem removeChat_spec_witness :
    (Store.removeChat 1 sampleState).currentChat = none
    ∧ (Store.removeChat 1 sampleState).messages = [] :=
  (removeChat_spec 1 sampleState).2.2.1 (sampleChat 1) rfl rfl

/-- C10 counterexample: the consistency invariant between `currentChat`
and the `chats` list is not preserved by `updateChat` for every partial
update - an update that rewrites the `id` field onto an id already held
by another chat breaks it. -/
theorem updateChat_invariant_cex :
    CurrentChatConsistent cexState
    ∧ ¬ CurrentChatConsistent (Store.updateChat 1 cexUpdate cexState) := by
  constructor
  · intro c e hc he hid
    have hc' : c = sampleChat 1 := by
      simpa [cexState] using hc.symm
    subst hc'
    rcases by simpa [cexState] using he with h | h
    · exact h
    · exact absurd (by rw [h] at hid; exact hid) (by decide)
  · intro h
    have hmem : cexChatB ∈ (Store.updateChat 1 cexUpdate cexState).chats := by decide
    have hcur : (Store.updateChat 1 cexUpdate cexState).currentChat
        = some (applyChatUpdate (sampleChat 1) cexUpdate) := by decide
    have := h (applyChatUpdate (sampleChat 1) cexUpdate) cexChatB hcur hmem (by decide)
    exact absurd this (by decide)

/-- C10 (amended): `updateChat` preserves list length and order, merges
the update exactly into the chats (and the current chat) whose id
matches, and preserves the `currentChat`-consistency invariant for every
update that does not set the `id` field. -/
theorem updateChat_spec (chatId : Int) (u : ChatUpdate) (s : ChatState) :
    (Store.updateChat chatId u s).chats
      = s.chats.map (fun c => if c.id = chatId then applyChatUpdate c u else c)
    ∧ (Store.updateChat chatId u s).chats.length = s.chats.length
    ∧ (∀ c, s.currentChat = some c →
        (Store.updateChat chatId u s).currentChat
          = some (if c.id = chatId then applyChatUpdate c u else c))
    ∧ (s.currentChat = none → (Store.updateChat chatId u s).currentChat = none)
    ∧ (u.id = none → CurrentChatConsistent s →
        CurrentChatConsistent (Store.updateChat chatId u s)) := by
  have hmap : (Store.updateChat chatId u s).chats
      = s.chats.map (fun c => if c.id = chatId then applyChatUpdate c u else c) := by
    simp only [Store.updateChat]
    exact List.map_congr_left fun c _ => by by_cases h : c.id = chatId <;> simp [h]
  refine ⟨hmap, by rw [hmap]; exact s.chats.length_map _, ?_, ?_, ?_⟩
  · intro c hc
    by_cases h : c.id = chatId <;> simp [Store.updateChat, hc, h]
  · intro hc
    simp [Store.updateChat, hc]
  · intro huid hinv c' e' hc' he' hide'
    rcases hcur : s.currentChat with _ | c
    · simp [Store.updateChat, hcur] at hc'
    · rw [hmap] at he'
      rcases List.mem_map.mp he' with ⟨e, he, rfl⟩
      simp only [Store.updateChat, hcur] at hc'
      have hc'' : c' = if c.id = chatId then applyChatUpdate c u else c := by
        by_cases hcid : c.id = chatId
        · rw [if_pos (beq_iff_eq.mpr hcid), Option.some.injEq] at hc'
          rw [if_pos hcid]
          exact hc'.symm
        · rw [if_neg (by simpa using hcid), Option.some.injEq] at hc'
          rw [if_neg hcid]
          exact hc'.symm
      subst hc''
      have hEid : (if e.id = chatId then applyChatUpdate e u else e).id = e.id := by
        by_cases h : e.id = chatId <;> simp [h, applyChatUpdate_id_none _ _ huid]
      have hCid : (if c.id = chatId then applyChatUpdate c u else c).id = c.id := by
        by_cases h : c.id = chatId <;> simp [h, applyChatUpdate_id_none _ _ huid]
      have hec : e.id = c.id := by
        rw [hEid, hCid] at hide'
        exact hide'
      have hece : e = c := hinv c e hcur he hec
      rw [hece]

/-- Witness for C10 (amended): the current chat receives the merge. -/
theorem updateChat_spec_witness :
    (Store.updateChat 1 ({ } : ChatUpdate) sampleState).currentChat
      = some (if (sampleChat 1).id = 1
          then applyChatUpdate (sampleChat 1) ({ } : ChatUpdate) else sampleChat 1) :=
  (updateChat_spec 1 ({ } : ChatUpdate) sampleState).2.2.1 (sampleChat 1) rfl

/-- C2 counterexample: in a concrete successful submission the
optimistic `addMessage` store mutation occurs strictly before the first
API return (and an API return does occur), so a store mutation precedes
the return of the API call it mirrors. -/
theorem submit_optimistic_before_return_cex :
    (handleSubmitTrace sampleApiOk 1 "hi" [sampleFile] (-5) "t1").findIdx isAddMessageMut
      < (handleSubmitTrace sampleApiOk 1 "hi" [sampleFile] (-5) "t1").findIdx isApiReturn
    ∧ (handleSubmitTrace sampleApiOk 1 "hi" [sampleFile] (-5) "t1").findIdx isApiReturn
      < (handleSubmitTrace sampleApiOk 1 "hi" [sampleFile] (-5) "t1").length := by
  have hgo : ¬(("hi" : String).trim = "" ∧ ([sampleFile] : List ComposerFile) = []) :=
    fun h => absurd h.2 (by simp)
  simp only [handleSubmitTrace, if_neg hgo, uploadPhase, sampleApiOk]
  decide

/-- Upload-loop events are API calls and returns, never store mutations. -/
theorem uploadPhase_no_mut (api : ApiBehavior) (files : List ComposerFile)
    (k : Nat) (metas : List FileMetadata) (ids : List String) :
    ∀ e ∈ (uploadPhase api files k metas ids).1, isStoreMut e = false := by
  induction files generalizing k metas ids with
  | nil => simp [uploadPhase]
  | cons f rest ih =>
    rcases hk : api.upload k with _ | resp <;> simp only [uploadPhase, hk]
    · intro e he
      simp only [List.mem_cons, List.not_mem_nil, or_false] at he
      rcases he with rfl | rfl <;> rfl
    · intro e he
      simp only [List.mem_cons] at he
      rcases he with rfl | rfl | h
      · rfl
      · rfl
      · exact ih (k + 1) _ _ e h

/-- The upload loop either succeeds with no failed return among its
events, or fails with a single failed return as its last event. -/
theorem uploadPhase_ret_split (api : ApiBehavior) (files : List ComposerFile)
    (k : Nat) (metas : List FileMetadata) (ids : List String) :
    ((uploadPhase api files k metas ids).2 ≠ none
      ∧ ∀ e ∈ (uploadPhase api files k metas ids).1, ∀ kk, e ≠ .ret kk false)
    ∨ ((uploadPhase api files k metas ids).2 = none
      ∧ ∃ a j, (uploadPhase api files k metas ids).1 = a ++ [Event.ret (.uploadFile j) false]
          ∧ ∀ e ∈ a, ∀ kk, e ≠ .ret kk false) := by
  induction files generalizing k metas ids with
  | nil =>
    left
    refine ⟨?_, ?_⟩
    · simp [uploadPhase]
    · simp [uploadPhase]
  | cons f rest ih =>
    rcases hk : api.upload k with _ | resp
    · have hupeq : uploadPhase api (f :: rest) k metas ids
          = ([Event.call (.uploadFile k), Event.ret (.uploadFile k) false], none) := by
        simp [uploadPhase, hk]
      right
      rw [hupeq]
      refine ⟨rfl, [Event.call (.uploadFile k)], k, rfl, ?_⟩
      intro e he kk
      simp only [List.mem_cons, List.not_mem_nil, or_false] at he
      subst he
      intro hcontra
      cases hcontra
    · have hupeq : uploadPhase api (f :: rest) k metas ids
          = (Event.call (.uploadFile k) :: Event.ret (.uploadFile k) true ::
              (uploadPhase api rest (k + 1)
                (metas ++ [uploadedMetaOf f resp]) (ids ++ [resp.file_id])).1,
             (uploadPhase api rest (k + 1)
                (metas ++ [uploadedMetaOf f resp]) (ids ++ [resp.file_id])).2) := by
        simp [uploadPhase, hk]
      rcases ih (k + 1) (metas ++ [uploadedMetaOf f resp]) (ids ++ [resp.file_id]) with
        ⟨hne, hok⟩ | ⟨hnone, a, j, heq, hok⟩
      · left
        rw [hupeq]
        refine ⟨hne, ?_⟩
        intro e he kk
        simp only [List.mem_cons] at he
        rcases he with rfl | rfl | h
        · intro hcontra; cases hcontra
        · intro hcontra; cases hcontra
        · exact hok e h kk
      · right
        rw [hupeq]
        refine ⟨hnone,
          Event.call (.uploadFile k) :: Event.ret (.uploadFile k) true :: a, j,
          by simp [heq], ?_⟩
        intro e he kk
        simp only [List.mem_cons] at he
        rcases he with rfl | rfl | h
        · intro hcontra; cases hcontra
        · intro hcontra; cases hcontra
        · exact hok e h kk

/-- Any event of a trace of the form `pre ++ e0 :: post` that satisfies
`P` - which no event of `pre` and not `e0` itself satisfies - occurs at
an index strictly after an occurrence of `e0`. -/
theorem exists_ret_before (pre post : List Event) (e0 : Event) (P : Event → Prop)
    (hpre : ∀ e ∈ pre, ¬ P e) (h0 : ¬ P e0) :
    ∀ i e, (pre ++ e0 :: post).get? i = some e → P e →
      ∃ j < i, (pre ++ e0 :: post).get? j = some e0 := by
  intro i e hi hP
  have hilen : pre.length < i := by
    rcases Nat.lt_trichotomy i pre.length with hlt | heq | hgt
    · rw [List.get?_append hlt] at hi
      exact absurd hP (hpre e (List.get?_mem hi))
    · subst heq
      rw [List.get?_append_right (le_refl _), Nat.sub_self, List.get?_cons_zero] at hi
      have he0 : e0 = e := Option.some.inj hi
      subst he0
      exact absurd hP h0
    · exact hgt
  refine ⟨pre.length, hilen, ?_⟩
  rw [List.get?_append_right (le_refl _), Nat.sub_self, List.get?_cons_zero]

/-- C2 (amended): for every submission and every outcome of its API
calls, each store mutation that mirrors a server response occurs only
after the corresponding call returns successfully - an `updateMessage`
merge of uploaded file metadata, or an `addMessage` of anything other
than the optimistic user message, only after `sendMessage` returned
successfully, and a `setMessages` list replacement only after
`getChatMessages` returned successfully; the rollback `removeMessage`
occurs only after some call's failed return; and every API return comes
after the two initial mutations, the sending flag and the optimistic
insertion. -/
theorem submit_mirrored_mutations_after_return (api : ApiBehavior) (chatId : Int)
    (content : String) (files : List ComposerFile) (tempId : Int) (nowIso : String) :
    (∀ i u, (handleSubmitTrace api chatId content files tempId nowIso).get? i
        = some (.mut (.updateMessage tempId u)) →
      ∃ j < i, (handleSubmitTrace api chatId content files tempId nowIso).get? j
        = some (.ret .sendMessage true))
    ∧ (∀ i m, (handleSubmitTrace api chatId content files tempId nowIso).get? i
        = some (.mut (.addMessage m)) →
      m = optimisticUserOf chatId tempId content files nowIso
      ∨ ∃ j < i, (handleSubmitTrace api chatId content files tempId nowIso).get? j
          = some (.ret .sendMessage true))
    ∧ (∀ i ms, (handleSubmitTrace api chatId content files tempId nowIso).get? i
        = some (.mut (.setMessages ms)) →
      ∃ j < i, (handleSubmitTrace api chatId content files tempId nowIso).get? j
        = some (.ret .getChatMessages true))
    ∧ (∀ i tid, (handleSubmitTrace api chatId content files tempId nowIso).get? i
        = some (.mut (.removeMessage tid)) →
      ∃ j < i, ∃ k, (handleSubmitTrace api chatId content files tempId nowIso).get? j
        = some (.ret k false))
    ∧ (∀ j k b, (handleSubmitTrace api chatId content files tempId nowIso).get? j
        = some (.ret k b) → 2 ≤ j)
    ∧ (handleSubmitTrace api chatId content files tempId nowIso ≠ [] →
      (handleSubmitTrace api chatId content files tempId nowIso).get? 0
          = some (.mut (.setSending true))
      ∧ (handleSubmitTrace api chatId content files tempId nowIso).get? 1
          = some (.mut (.addMessage
              (optimisticUserOf chatId tempId content files nowIso)))) := by
  by_cases hgo : content.trim = "" ∧ files = []
  · have ht : handleSubmitTrace api chatId content files tempId nowIso = [] := by
      simp [handleSubmitTrace, hgo]
    rw [ht]
    refine ⟨?_, ?_, ?_, ?_, ?_, ?_⟩
    · intro i u hi
      simp at hi
    · intro i m hi
      simp at hi
    · intro i ms hi
      simp at hi
    · intro i tid hi
      simp at hi
    · intro j k b hj
      simp at hj
    · intro hne
      exact absurd rfl hne
  · obtain ⟨rest0, ht0⟩ : ∃ rest0,
        handleSubmitTrace api chatId content files tempId nowIso
          = Event.mut (.setSending true)
            :: Event.mut (.addMessage (optimisticUserOf chatId tempId content files nowIso))
            :: rest0 := by
      simp only [handleSubmitTrace, if_neg hgo]
      exact ⟨_, rfl⟩
    refine ⟨?_, ?_, ?_, ?_, ?_, ?_⟩
    · -- updateMessage only after a successful sendMessage return
      intro i u hi
      rcases hpair : (uploadPhase api files 0 [] []).2 with _ | ⟨metas, ids⟩
      · have ht : handleSubmitTrace api chatId content files tempId nowIso
            = Event.mut (.setSending true)
              :: Event.mut (.addMessage (optimisticUserOf chatId tempId content files nowIso))
              :: ((uploadPhase api files 0 [] []).1
                ++ [Event.mut (.removeMessage tempId), Event.mut (.setSending false)]) := by
          simp only [handleSubmitTrace, if_neg hgo, hpair]
        exfalso
        have he := List.get?_mem hi
        rw [ht] at he
        simp only [List.mem_cons, List.mem_append, List.not_mem_nil, or_false] at he
        rcases he with h | h | h | h | h
        · simp at h
        · simp at h
        · have hh := uploadPhase_no_mut api files 0 [] [] _ h
          simp [isStoreMut] at hh
        · simp at h
        · simp at h
      · rcases hsendc : api.send with _ | assistant
        · have ht : handleSubmitTrace api chatId content files tempId nowIso
              = Event.mut (.setSending true)
                :: Event.mut (.addMessage (optimisticUserOf chatId tempId content files nowIso))
                :: ((uploadPhase api files 0 [] []).1
                  ++ [Event.call .sendMessage, Event.ret .sendMessage false,
                      Event.mut (.removeMessage tempId), Event.mut (.setSending false)]) := by
            simp only [handleSubmitTrace, if_neg hgo, hpair, hsendc]
          exfalso
          have he := List.get?_mem hi
          rw [ht] at he
          simp only [List.mem_cons, List.mem_append, List.not_mem_nil, or_false] at he
          rcases he with h | h | h | h | h | h | h
          · simp at h
          · simp at h
          · have hh := uploadPhase_no_mut api files 0 [] [] _ h
            simp [isStoreMut] at hh
          · simp at h
          · simp at h
          · simp at h
          · simp at h
        · obtain ⟨post, hsp⟩ : ∃ post,
              handleSubmitTrace api chatId content files tempId nowIso
                = (Event.mut (.setSending true)
                    :: Event.mut (.addMessage
                        (optimisticUserOf chatId tempId content files nowIso))
                    :: ((uploadPhase api files 0 [] []).1 ++ [Event.call .sendMessage]))
                  ++ Event.ret .sendMessage true :: post := by
            refine ⟨Event.mut (.updateMessage tempId
                  { files := some (match metas with | [] => none | _ => some metas) })
                :: Event.mut (.addMessage assistant)
                :: Event.call .getChatMessages
                :: (match api.refresh with
                    | none => [Event.ret .getChatMessages false,
                        Event.mut (.removeMessage tempId), Event.mut (.setSending false)]
                    | some refreshed => [Event.ret .getChatMessages true,
                        Event.mut (.setMessages refreshed), Event.mut (.setSending false)]), ?_⟩
            simp only [handleSubmitTrace, if_neg hgo, hpair, hsendc]
            simp [List.append_assoc]
            all_goals rcases metas with _ | ⟨m0, ms0⟩ <;> rfl
          have hpre : ∀ e ∈ (Event.mut (StoreMut.setSending true)
              :: Event.mut (.addMessage (optimisticUserOf chatId tempId content files nowIso))
              :: ((uploadPhase api files 0 [] []).1 ++ [Event.call .sendMessage])),
              ¬ e = Event.mut (.updateMessage tempId u) := by
            intro e he'
            simp only [List.mem_cons, List.mem_append, List.not_mem_nil, or_false] at he'
            rcases he' with rfl | rfl | h | rfl
            · simp
            · simp
            · intro hP
              have hh := uploadPhase_no_mut api files 0 [] [] _ h
              rw [hP] at hh
              simp [isStoreMut] at hh
            · simp
          rw [hsp] at hi ⊢
          exact exists_ret_before _ post _ (fun e => e = Event.mut (.updateMessage tempId u))
            hpre (by simp) i _ hi rfl
    · -- addMessage is the optimistic insertion or comes after the send return
      intro i m hi
      by_cases hm : m = optimisticUserOf chatId tempId content files nowIso
      · exact Or.inl hm
      rcases hpair : (uploadPhase api files 0 [] []).2 with _ | ⟨metas, ids⟩
      · have ht : handleSubmitTrace api chatId content files tempId nowIso
            = Event.mut (.setSending true)
              :: Event.mut (.addMessage (optimisticUserOf chatId tempId content files nowIso))
              :: ((uploadPhase api files 0 [] []).1
                ++ [Event.mut (.removeMessage tempId), Event.mut (.setSending false)]) := by
          simp only [handleSubmitTrace, if_neg hgo, hpair]
        exfalso
        have he := List.get?_mem hi
        rw [ht] at he
        simp only [List.mem_cons, List.mem_append, List.not_mem_nil, or_false] at he
        rcases he with h | h | h | h | h
        · simp at h
        · simp at h
          exact hm h
        · have hh := uploadPhase_no_mut api files 0 [] [] _ h
          simp [isStoreMut] at hh
        · simp at h
        · simp at h
      · rcases hsendc : api.send with _ | assistant
        · have ht : handleSubmitTrace api chatId content files tempId nowIso
              = Event.mut (.setSending true)
                :: Event.mut (.addMessage (optimisticUserOf chatId tempId content files nowIso))
                :: ((uploadPhase api files 0 [] []).1
                  ++ [Event.call .sendMessage, Event.ret .sendMessage false,
                      Event.mut (.removeMessage tempId), Event.mut (.setSending false)]) := by
            simp only [handleSubmitTrace, if_neg hgo, hpair, hsendc]
          exfalso
          have he := List.get?_mem hi
          rw [ht] at he
          simp only [List.mem_cons, List.mem_append, List.not_mem_nil, or_false] at he
          rcases he with h | h | h | h | h | h | h
          · simp at h
          · simp at h
            exact hm h
          · have hh := uploadPhase_no_mut api files 0 [] [] _ h
            simp [isStoreMut] at hh
          · simp at h
          · simp at h
          · simp at h
          · simp at h
        · obtain ⟨post, hsp⟩ : ∃ post,
              handleSubmitTrace api chatId content files tempId nowIso
                = (Event.mut (.setSending true)
                    :: Event.mut (.addMessage
                        (optimisticUserOf chatId tempId content files nowIso))
                    :: ((uploadPhase api files 0 [] []).1 ++ [Event.call .sendMessage]))
                  ++ Event.ret .sendMessage true :: post := by
            refine ⟨Event.mut (.updateMessage tempId
                  { files := some (match metas with | [] => none | _ => some metas) })
                :: Event.mut (.addMessage assistant)
                :: Event.call .getChatMessages
                :: (match api.refresh with
                    | none => [Event.ret .getChatMessages false,
                        Event.mut (.removeMessage tempId), Event.mut (.setSending false)]
                    | some refreshed => [Event.ret .getChatMessages true,
                        Event.mut (.setMessages refreshed), Event.mut (.setSending false)]), ?_⟩
            simp only [handleSubmitTrace, if_neg hgo, hpair, hsendc]
            simp [List.append_assoc]
            all_goals rcases metas with _ | ⟨m0, ms0⟩ <;> rfl
          have hpre : ∀ e ∈ (Event.mut (StoreMut.setSending true)
              :: Event.mut (.addMessage (optimisticUserOf chatId tempId content files nowIso))
              :: ((uploadPhase api files 0 [] []).1 ++ [Event.call .sendMessage])),
              ¬ e = Event.mut (.addMessage m) := by
            intro e he'
            simp only [List.mem_cons, List.mem_append, List.not_mem_nil, or_false] at he'
            rcases he' with rfl | rfl | h | rfl
            · simp
            · intro hP
              simp at hP
              exact hm hP.symm
            · intro hP
              have hh := uploadPhase_no_mut api files 0 [] [] _ h
              rw [hP] at hh
              simp [isStoreMut] at hh
            · simp
          rw [hsp] at hi ⊢
          exact Or.inr (exists_ret_before _ post _ (fun e => e = Event.mut (.addMessage m))
            hpre (by simp) i _ hi rfl)
    · -- setMessages only after a successful getChatMessages return
      intro i ms hi
      rcases hpair : (uploadPhase api files 0 [] []).2 with _ | ⟨metas, ids⟩
      · have ht : handleSubmitTrace api chatId content files tempId nowIso
            = Event.mut (.setSending true)
              :: Event.mut (.addMessage (optimisticUserOf chatId tempId content files nowIso))
              :: ((uploadPhase api files 0 [] []).1
                ++ [Event.mut (.removeMessage tempId), Event.mut (.setSending false)]) := by
          simp only [handleSubmitTrace, if_neg hgo, hpair]
        exfalso
        have he := List.get?_mem hi
        rw [ht] at he
        simp only [List.mem_cons, List.mem_append, List.not_mem_nil, or_false] at he
        rcases he with h | h | h | h | h
        · simp at h
        · simp at h
        · have hh := uploadPhase_no_mut api files 0 [] [] _ h
          simp [isStoreMut] at hh
        · simp at h
        · simp at h
      · rcases hsendc : api.send with _ | assistant
        · have ht : handleSubmitTrace api chatId content files tempId nowIso
              = Event.mut (.setSending true)
                :: Event.mut (.addMessage (optimisticUserOf chatId tempId content files nowIso))
                :: ((uploadPhase api files 0 [] []).1
                  ++ [Event.call .sendMessage, Event.ret .sendMessage false,
                      Event.mut (.removeMessage tempId), Event.mut (.setSending false)]) := by
            simp only [handleSubmitTrace, if_neg hgo, hpair, hsendc]
          exfalso
          have he := List.get?_mem hi
          rw [ht] at he
          simp only [List.mem_cons, List.mem_append, List.not_mem_nil, or_false] at he
          rcases he with h | h | h | h | h | h | h
          · simp at h
          · simp at h
          · have hh := uploadPhase_no_mut api files 0 [] [] _ h
            simp [isStoreMut] at hh
          · simp at h
          · simp at h
          · simp at h
          · simp at h
        · rcases hrefc : api.refresh with _ | refreshed
          · have ht : handleSubmitTrace api chatId content files tempId nowIso
                = Event.mut (.setSending true)
                  :: Event.mut (.addMessage
                      (optimisticUserOf chatId tempId content files nowIso))
                  :: ((uploadPhase api files 0 [] []).1
                    ++ [Event.call .sendMessage, Event.ret .sendMessage true,
                        Event.mut (.updateMessage tempId
                          { files := some (match metas with | [] => none | _ => some metas) }),
                        Event.mut (.addMessage assistant),
                        Event.call .getChatMessages, Event.ret .getChatMessages false,
                        Event.mut (.removeMessage tempId), Event.mut (.setSending false)]) := by
              simp only [handleSubmitTrace, if_neg hgo, hpair, hsendc, hrefc]
              simp
              all_goals rcases metas with _ | ⟨m0, ms0⟩ <;> rfl
            exfalso
            have he := List.get?_mem hi
            rw [ht] at he
            simp only [List.mem_cons, List.mem_append, List.not_mem_nil, or_false] at he
            rcases he with h | h | h | h | h | h | h | h | h | h | h
            · simp at h
            · simp at h
            · have hh := uploadPhase_no_mut api files 0 [] [] _ h
              simp [isStoreMut] at hh
            · simp at h
            · simp at h
            · simp at h
            · simp at h
            · simp at h
            · simp at h
            · simp at h
            · simp at h
          · obtain ⟨post, hsp⟩ : ∃ post,
                handleSubmitTrace api chatId content files tempId nowIso
                  = (Event.mut (.setSending true)
                      :: Event.mut (.addMessage
                          (optimisticUserOf chatId tempId content files nowIso))
                      :: ((uploadPhase api files 0 [] []).1
                        ++ [Event.call .sendMessage, Event.ret .sendMessage true,
                            Event.mut (.updateMessage tempId
                              { files := some
                                  (match metas with | [] => none | _ => some metas) }),
                            Event.mut (.addMessage assistant),
                            Event.call .getChatMessages]))
                    ++ Event.ret .getChatMessages true :: post := by
              refine ⟨[Event.mut (.setMessages refreshed), Event.mut (.setSending false)], ?_⟩
              simp only [handleSubmitTrace, if_neg hgo, hpair, hsendc, hrefc]
              simp [List.append_assoc]
            have hpre : ∀ e ∈ (Event.mut (StoreMut.setSending true)
                :: Event.mut (.addMessage
                    (optimisticUserOf chatId tempId content files nowIso))
                :: ((uploadPhase api files 0 [] []).1
                  ++ [Event.call .sendMessage, Event.ret .sendMessage true,
                      Event.mut (.updateMessage tempId
                        { files := some (match metas with | [] => none | _ => some metas) }),
                      Event.mut (.addMessage assistant),
                      Event.call .getChatMessages])),
                ¬ e = Event.mut (.setMessages ms) := by
              intro e he'
              simp only [List.mem_cons, List.mem_append, List.not_mem_nil, or_false] at he'
              rcases he' with rfl | rfl | h | rfl | rfl | rfl | rfl | rfl
              · simp
              · simp
              · intro hP
                have hh := uploadPhase_no_mut api files 0 [] [] _ h
                rw [hP] at hh
                simp [isStoreMut] at hh
              · simp
              · simp
              · simp
              · simp
              · simp
            rw [hsp] at hi ⊢
            exact exists_ret_before _ post _ (fun e => e = Event.mut (.setMessages ms))
              hpre (by simp) i _ hi rfl
    · -- removeMessage only after some failed return
      intro i tid hi
      rcases hpair : (uploadPhase api files 0 [] []).2 with _ | ⟨metas, ids⟩
      · have ht : handleSubmitTrace api chatId content files tempId nowIso
            = Event.mut (.setSending true)
              :: Event.mut (.addMessage (optimisticUserOf chatId tempId content files nowIso))
              :: ((uploadPhase api files 0 [] []).1
                ++ [Event.mut (.removeMessage tempId), Event.mut (.setSending false)]) := by
          simp only [handleSubmitTrace, if_neg hgo, hpair]
        rcases uploadPhase_ret_split api files 0 [] [] with ⟨hne, _⟩ | ⟨_, a, jf, hequp, hok⟩
        · exact absurd hpair hne
        have hsp : handleSubmitTrace api chatId content files tempId nowIso
            = (Event.mut (.setSending true)
                :: Event.mut (.addMessage
                    (optimisticUserOf chatId tempId content files nowIso))
                :: a)
              ++ Event.ret (.uploadFile jf) false
              :: [Event.mut (.removeMessage tempId), Event.mut (.setSending false)] := by
          rw [ht, hequp]
          simp
        have hpre : ∀ e ∈ (Event.mut (StoreMut.setSending true)
            :: Event.mut (.addMessage (optimisticUserOf chatId tempId content files nowIso))
            :: a),
            ¬ ∃ t0, e = Event.mut (.removeMessage t0) := by
          intro e he'
          simp only [List.mem_cons] at he'
          rcases he' with rfl | rfl | h
          · rintro ⟨t0, hP⟩
            simp at hP
          · rintro ⟨t0, hP⟩
            simp at hP
          · rintro ⟨t0, hP⟩
            have he_up : e ∈ (uploadPhase api files 0 [] []).1 := by
              rw [hequp]
              exact List.mem_append_left _ h
            have hh := uploadPhase_no_mut api files 0 [] [] _ he_up
            rw [hP] at hh
            simp [isStoreMut] at hh
        rw [hsp] at hi ⊢
        obtain ⟨j, hj, hje⟩ := exists_ret_before _ _ _
          (fun e => ∃ t0, e = Event.mut (.removeMessage t0)) hpre
          (by rintro ⟨t0, hP⟩; simp at hP) i _ hi ⟨tid, rfl⟩
        exact ⟨j, hj, .uploadFile jf, hje⟩
      · rcases hsendc : api.send with _ | assistant
        · have hsp : handleSubmitTrace api chatId content files tempId nowIso
              = (Event.mut (.setSending true)
                  :: Event.mut (.addMessage
                      (optimisticUserOf chatId tempId content files nowIso))
                  :: ((uploadPhase api files 0 [] []).1 ++ [Event.call .sendMessage]))
                ++ Event.ret .sendMessage false
                :: [Event.mut (.removeMessage tempId), Event.mut (.setSending false)] := by
            simp only [handleSubmitTrace, if_neg hgo, hpair, hsendc]
            simp [List.append_assoc]
          have hpre : ∀ e ∈ (Event.mut (StoreMut.setSending true)
              :: Event.mut (.addMessage (optimisticUserOf chatId tempId content files nowIso))
              :: ((uploadPhase api files 0 [] []).1 ++ [Event.call .sendMessage])),
              ¬ ∃ t0, e = Event.mut (.removeMessage t0) := by
            intro e he'
            simp only [List.mem_cons, List.mem_append, List.not_mem_nil, or_false] at he'
            rcases he' with rfl | rfl | h | rfl
            · rintro ⟨t0, hP⟩
              simp at hP
            · rintro ⟨t0, hP⟩
              simp at hP
            · rintro ⟨t0, hP⟩
              have hh := uploadPhase_no_mut api files 0 [] [] _ h
              rw [hP] at hh
              simp [isStoreMut] at hh
            · rintro ⟨t0, hP⟩
              simp at hP
          rw [hsp] at hi ⊢
          obtain ⟨j, hj, hje⟩ := exists_ret_before _ _ _
            (fun e => ∃ t0, e = Event.mut (.removeMessage t0)) hpre
            (by rintro ⟨t0, hP⟩; simp at hP) i _ hi ⟨tid, rfl⟩
          exact ⟨j, hj, .sendMessage, hje⟩
        · rcases hrefc : api.refresh with _ | refreshed
          · obtain ⟨pay, hsp⟩ : ∃ pay : MessageUpdate,
                handleSubmitTrace api chatId content files tempId nowIso
                = (Event.mut (.setSending true)
                    :: Event.mut (.addMessage
                        (optimisticUserOf chatId tempId content files nowIso))
                    :: ((uploadPhase api files 0 [] []).1
                      ++ [Event.call .sendMessage, Event.ret .sendMessage true,
                          Event.mut (.updateMessage tempId pay),
                          Event.mut (.addMessage assistant),
                          Event.call .getChatMessages]))
                  ++ Event.ret .getChatMessages false
                  :: [Event.mut (.removeMessage tempId), Event.mut (.setSending false)] := by
              refine ⟨{ files := some (match metas with | [] => none | _ => some metas) }, ?_⟩
              simp only [handleSubmitTrace, if_neg hgo, hpair, hsendc, hrefc]
              simp [List.append_assoc]
              all_goals rcases metas with _ | ⟨m0, ms0⟩ <;> rfl
            have hpre : ∀ e ∈ (Event.mut (StoreMut.setSending true)
                :: Event.mut (.addMessage
                    (optimisticUserOf chatId tempId content files nowIso))
                :: ((uploadPhase api files 0 [] []).1
                  ++ [Event.call .sendMessage, Event.ret .sendMessage true,
                      Event.mut (.updateMessage tempId pay),
                      Event.mut (.addMessage assistant),
                      Event.call .getChatMessages])),
                ¬ ∃ t0, e = Event.mut (.removeMessage t0) := by
              intro e he'
              simp only [List.mem_cons, List.mem_append, List.not_mem_nil, or_false] at he'
              rcases he' with rfl | rfl | h | rfl | rfl | rfl | rfl | rfl
              · rintro ⟨t0, hP⟩
                simp at hP
              · rintro ⟨t0, hP⟩
                simp at hP
              · rintro ⟨t0, hP⟩
                have hh := uploadPhase_no_mut api files 0 [] [] _ h
                rw [hP] at hh
                simp [isStoreMut] at hh
              · rintro ⟨t0, hP⟩
                simp at hP
              · rintro ⟨t0, hP⟩
                simp at hP
              · rintro ⟨t0, hP⟩
                simp at hP
              · rintro ⟨t0, hP⟩
                simp at hP
              · rintro ⟨t0, hP⟩
                simp at hP
            rw [hsp] at hi ⊢
            obtain ⟨j, hj, hje⟩ := exists_ret_before _ _ _
              (fun e => ∃ t0, e = Event.mut (.removeMessage t0)) hpre
              (by rintro ⟨t0, hP⟩; simp at hP) i _ hi ⟨tid, rfl⟩
            exact ⟨j, hj, .getChatMessages, hje⟩
          · have ht : handleSubmitTrace api chatId content files tempId nowIso
                = Event.mut (.setSending true)
                  :: Event.mut (.addMessage
                      (optimisticUserOf chatId tempId content files nowIso))
                  :: ((uploadPhase api files 0 [] []).1
                    ++ [Event.call .sendMessage, Event.ret .sendMessage true,
                        Event.mut (.updateMessage tempId
                          { files := some (match metas with | [] => none | _ => some metas) }),
                        Event.mut (.addMessage assistant),
                        Event.call .getChatMessages, Event.ret .getChatMessages true,
                        Event.mut (.setMessages refreshed), Event.mut (.setSending false)]) := by
              simp only [handleSubmitTrace, if_neg hgo, hpair, hsendc, hrefc]
              simp
              all_goals rcases metas with _ | ⟨m0, ms0⟩ <;> rfl
            exfalso
            have he := List.get?_mem hi
            rw [ht] at he
            simp only [List.mem_cons, List.mem_append, List.not_mem_nil, or_false] at he
            rcases he with h | h | h | h | h | h | h | h | h | h | h
            · simp at h
            · simp at h
            · have hh := uploadPhase_no_mut api files 0 [] [] _ h
              simp [isStoreMut] at hh
            · simp at h
            · simp at h
            · simp at h
            · simp at h
            · simp at h
            · simp at h
            · simp at h
            · simp at h
    · -- every API return comes at index at least 2
      intro j k b hj
      rcases j with _ | j1
      · rw [ht0] at hj
        simp [List.get?] at hj
      rcases j1 with _ | j2
      · rw [ht0] at hj
        simp [List.get?] at hj
      · omega
    · -- the first two events are the sending flag and the optimistic insertion
      intro hne
      rw [ht0]
      exact ⟨rfl, rfl⟩

/-- Witness for C2 (amended) at a concrete submission whose
`sendMessage` call is rejected: the first two events are the sending
flag and the optimistic insertion. -/
theorem submit_mirrored_mutations_witness :
    (handleSubmitTrace sampleApiSendFail 1 "hi" [sampleFile] (-5) "t1").get? 0
        = some (.mut (.setSending true))
    ∧ (handleSubmitTrace sampleApiSendFail 1 "hi" [sampleFile] (-5) "t1").get? 1
        = some (.mut (.addMessage (optimisticUserOf 1 (-5) "hi" [sampleFile] "t1"))) :=
  (submit_mirrored_mutations_after_return sampleApiSendFail 1 "hi" [sampleFile]
      (-5) "t1").2.2.2.2.2
    (by
      simp only [handleSubmitTrace,
        if_neg (show ¬(("hi" : String).trim = "" ∧ ([sampleFile] : List ComposerFile) = [])
          from fun h => absurd h.2 (by simp))]
      exact List.cons_ne_nil _ _)

/-- The upload loop issues at most one `uploadFile` call per remaining
file. -/
theorem uploadPhase_countUpload_le (api : ApiBehavior) (files : List ComposerFile)
    (k : Nat) (metas : List FileMetadata) (ids : List String) :
    (uploadPhase api files k metas ids).1.countP isUploadCall ≤ files.length := by
  induction files generalizing k metas ids with
  | nil => simp [uploadPhase]
  | cons f rest ih =>
    rcases hk : api.upload k with _ | resp <;> simp only [uploadPhase, hk]
    · simp [List.countP_cons, isUploadCall]
    · have h1 : isUploadCall (Event.call (.uploadFile k)) = true := rfl
      have h2 : isUploadCall (Event.ret (.uploadFile k) true) = false := rfl
      rw [List.countP_cons, List.countP_cons, h1, h2,
        if_neg Bool.false_ne_true, if_pos rfl, List.length_cons]
      have := ih (k + 1) (metas ++ [uploadedMetaOf f resp]) (ids ++ [resp.file_id])
      omega

/-- The upload loop issues the call for position `k'` at most once, and
never for positions below its starting index. -/
theorem uploadPhase_countUploadAt (api : ApiBehavior) (files : List ComposerFile)
    (k : Nat) (metas : List FileMetadata) (ids : List String) (kq : Nat) :
    (uploadPhase api files k metas ids).1.countP (isUploadCallAt kq)
      ≤ if kq < k then 0 else 1 := by
  induction files generalizing k metas ids with
  | nil => simp [uploadPhase]
  | cons f rest ih =>
    rcases hk : api.upload k with _ | resp <;> simp only [uploadPhase, hk]
    · have h2 : isUploadCallAt kq (Event.ret (.uploadFile k) false) = false := rfl
      by_cases hkk : k = kq
      · subst hkk
        have h1 : isUploadCallAt k (Event.call (.uploadFile k)) = true := by
          simp [isUploadCallAt]
        rw [List.countP_cons, List.countP_cons, List.countP_nil, h1, h2,
          if_neg Bool.false_ne_true, if_pos rfl, if_neg (lt_irrefl k)]
      · have h1 : isUploadCallAt kq (Event.call (.uploadFile k)) = false := by
          simp [isUploadCallAt]
          exact hkk
        rw [List.countP_cons, List.countP_cons, List.countP_nil, h1, h2,
          if_neg Bool.false_ne_true]
        split <;> omega
    · have hrec := ih (k + 1) (metas ++ [uploadedMetaOf f resp]) (ids ++ [resp.file_id])
      have h2 : isUploadCallAt kq (Event.ret (.uploadFile k) true) = false := rfl
      by_cases hkk : k = kq
      · subst hkk
        have h1 : isUploadCallAt k (Event.call (.uploadFile k)) = true := by
          simp [isUploadCallAt]
        rw [if_neg (lt_irrefl k)]
        rw [if_pos (Nat.lt_succ_self k)] at hrec
        rw [List.countP_cons, List.countP_cons, h1, h2,
          if_neg Bool.false_ne_true, if_pos rfl]
        omega
      · have h1 : isUploadCallAt kq (Event.call (.uploadFile k)) = false := by
          simp [isUploadCallAt]
          exact hkk
        rw [List.countP_cons, List.countP_cons, h1, h2,
          if_neg Bool.false_ne_true]
        rcases Nat.lt_trichotomy kq k with hlt | heq | hgt
        · rw [if_pos hlt]
          rw [if_pos (hlt.trans (Nat.lt_succ_self k))] at hrec
          omega
        · exact absurd heq.symm hkk
        · rw [if_neg (by omega)]
          rw [if_neg (by omega)] at hrec
          omega

/-- The upload loop never issues a `sendMessage` call. -/
theorem uploadPhase_no_send (api : ApiBehavior) (files : List ComposerFile)
    (k : Nat) (metas : List FileMetadata) (ids : List String) :
    (uploadPhase api files k metas ids).1.countP isSendCall = 0 := by
  induction files generalizing k metas ids with
  | nil => simp [uploadPhase]
  | cons f rest ih =>
    rcases hk : api.upload k with _ | resp <;> simp only [uploadPhase, hk]
    · rfl
    · have h1 : isSendCall (Event.call (.uploadFile k)) = false := rfl
      have h2 : isSendCall (Event.ret (.uploadFile k) true) = false := rfl
      rw [List.countP_cons, List.countP_cons, h1, h2,
        if_neg Bool.false_ne_true]
      have := ih (k + 1) (metas ++ [uploadedMetaOf f resp]) (ids ++ [resp.file_id])
      omega

/-- A trace that splits into a failure-free part followed by a call-free
part issues no API call after a failed return. -/
theorem no_call_after_fail_of_split (t : List Event)
    (h : ∃ a b, t = a ++ b
      ∧ (∀ e ∈ a, ∀ k, e ≠ .ret k false)
      ∧ (∀ e ∈ b, ∀ k, e ≠ .call k)) :
    ∀ i k, t.get? i = some (.ret k false) →
      ∀ j, i < j → ∀ k', t.get? j ≠ some (.call k') := by
  rintro i k hi j hij k' hj
  obtain ⟨a, b, rfl, ha, hb⟩ := h
  have hia : a.length ≤ i := by
    by_contra hlt
    push_neg at hlt
    rw [List.get?_append hlt] at hi
    exact ha _ (List.get?_mem hi) k rfl
  have hja : a.length ≤ j := hia.trans hij.le
  rw [List.get?_append_right hja] at hj
  exact hb _ (List.get?_mem hj) k' rfl

/-- Every submission trace splits into a failure-free part followed by a
call-free part. -/
theorem submit_trace_split (api : ApiBehavior) (chatId : Int) (content : String)
    (files : List ComposerFile) (tempId : Int) (nowIso : String) :
    ∃ a b, handleSubmitTrace api chatId content files tempId nowIso = a ++ b
      ∧ (∀ e ∈ a, ∀ k, e ≠ .ret k false)
      ∧ (∀ e ∈ b, ∀ k, e ≠ .call k) := by
  by_cases hgo : content.trim = "" ∧ files = []
  · exact ⟨[], [], by simp [handleSubmitTrace, hgo], by simp, by simp⟩
  · have hmutfree : ∀ (m : StoreMut) (kk : ApiKind), Event.mut m ≠ .ret kk false :=
      fun m kk h => by cases h
    have hmutcall : ∀ (m : StoreMut) (kk : ApiKind), Event.mut m ≠ .call kk :=
      fun m kk h => by cases h
    rcases uploadPhase_ret_split api files 0 [] [] with ⟨hne, hok⟩ | ⟨hnone, a, j, heq, hok⟩
    · rcases Option.ne_none_iff_exists'.mp hne with ⟨⟨uploadedMetas, fileIds⟩, hpair⟩
      rcases hsend : api.send with _ | assistantMessage
      · refine ⟨Event.mut (.setSending true)
            :: Event.mut (.addMessage (optimisticUserOf chatId tempId content files nowIso))
            :: ((uploadPhase api files 0 [] []).1 ++ [Event.call .sendMessage]),
          [Event.ret .sendMessage false, Event.mut (.removeMessage tempId),
           Event.mut (.setSending false)], ?_, ?_, ?_⟩
        · simp only [handleSubmitTrace, if_neg hgo, hpair, hsend]
          simp
        · intro e he kk
          simp only [List.mem_cons, List.mem_append, List.not_mem_nil, or_false] at he
          rcases he with rfl | rfl | h | rfl
          · exact hmutfree _ kk
          · exact hmutfree _ kk
          · exact hok e h kk
          · intro hcontra; cases hcontra
        · intro e he k
          simp only [List.mem_cons, List.not_mem_nil, or_false] at he
          rcases he with rfl | rfl | rfl
          · intro hcontra; cases hcontra
          · exact hmutcall _ k
          · exact hmutcall _ k
      · rcases hrefresh : api.refresh with _ | refreshed
        · refine ⟨Event.mut (.setSending true)
              :: Event.mut (.addMessage (optimisticUserOf chatId tempId content files nowIso))
              :: ((uploadPhase api files 0 [] []).1
                ++ [Event.call .sendMessage, Event.ret .sendMessage true,
                    Event.mut (.updateMessage tempId
                      { files := some (match uploadedMetas with | [] => none | _ => some uploadedMetas) }),
                    Event.mut (.addMessage assistantMessage),
                    Event.call .getChatMessages]),
            [Event.ret .getChatMessages false, Event.mut (.removeMessage tempId),
             Event.mut (.setSending false)], ?_, ?_, ?_⟩
          · simp only [handleSubmitTrace, if_neg hgo, hpair, hsend, hrefresh]
            simp
            rcases uploadedMetas with _ | ⟨m0, ms⟩ <;> rfl
          · intro e he kk
            simp only [List.mem_cons, List.mem_append, List.not_mem_nil, or_false] at he
            rcases he with rfl | rfl | h | rfl | rfl | rfl | rfl | rfl
            · exact hmutfree _ kk
            · exact hmutfree _ kk
            · exact hok e h kk
            · intro hcontra; cases hcontra
            · intro hcontra; cases hcontra
            · exact hmutfree _ kk
            · exact hmutfree _ kk
            · intro hcontra; cases hcontra
          · intro e he k
            simp only [List.mem_cons, List.not_mem_nil, or_false] at he
            rcases he with rfl | rfl | rfl
            · intro hcontra; cases hcontra
            · exact hmutcall _ k
            · exact hmutcall _ k
        · refine ⟨handleSubmitTrace api chatId content files tempId nowIso, [], by simp, ?_, by simp⟩
          intro e he kk
          simp only [handleSubmitTrace, if_neg hgo, hpair, hsend, hrefresh] at he
          simp only [List.mem_cons, List.mem_append, List.not_mem_nil, or_false] at he
          rcases he with rfl | rfl | h | rfl | rfl | rfl | rfl | rfl | rfl | rfl | rfl
          · exact hmutfree _ kk
          · exact hmutfree _ kk
          · exact hok e h kk
          · intro hcontra; cases hcontra
          · intro hcontra; cases hcontra
          · exact hmutfree _ kk
          · exact hmutfree _ kk
          · intro hcontra; cases hcontra
          · intro hcontra; cases hcontra
          · exact hmutfree _ kk
          · exact hmutfree _ kk
    · refine ⟨Event.mut (.setSending true)
          :: Event.mut (.addMessage (optimisticUserOf chatId tempId content files nowIso))
          :: a,
        [Event.ret (.uploadFile j) false, Event.mut (.removeMessage tempId),
         Event.mut (.setSending false)], ?_, ?_, ?_⟩
      · simp only [handleSubmitTrace, if_neg hgo, hnone, heq]
        simp
      · intro e he kk
        simp only [List.mem_cons] at he
        rcases he with rfl | rfl | h
        · exact hmutfree _ kk
        · exact hmutfree _ kk
        · exact hok e h kk
      · intro e he k
        simp only [List.mem_cons, List.not_mem_nil, or_false] at he
        rcases he with rfl | rfl | rfl
        · intro hcontra; cases hcontra
        · exact hmutcall _ k
        · exact hmutcall _ k

/-- C7: a submission retries nothing: it issues at most one `uploadFile`
call in total per attached file, at most one call for the file at any
given position, at most one `sendMessage` call, and after any API call
returns a failure no further API call of any kind is issued. -/
theorem submit_no_retry (api : ApiBehavior) (chatId : Int) (content : String)
    (files : List ComposerFile) (tempId : Int) (nowIso : String) :
    ((handleSubmitTrace api chatId content files tempId nowIso).countP isUploadCall
      ≤ files.length)
    ∧ (∀ kq, (handleSubmitTrace api chatId content files tempId nowIso).countP
        (isUploadCallAt kq) ≤ 1)
    ∧ ((handleSubmitTrace api chatId content files tempId nowIso).countP isSendCall ≤ 1)
    ∧ (∀ i k, (handleSubmitTrace api chatId content files tempId nowIso).get? i
          = some (.ret k false) →
        ∀ j, i < j → ∀ k',
          (handleSubmitTrace api chatId content files tempId nowIso).get? j
            ≠ some (.call k')) := by
  refine ⟨?_, ?_, ?_,
    no_call_after_fail_of_split _ (submit_trace_split api chatId content files tempId nowIso)⟩
  · by_cases hgo : content.trim = "" ∧ files = []
    · simp [handleSubmitTrace, hgo]
    · have hup := uploadPhase_countUpload_le api files 0 [] []
      rcases hpair : (uploadPhase api files 0 [] []).2 with _ | ⟨uploadedMetas, fileIds⟩
      · simp only [handleSubmitTrace, if_neg hgo, hpair]
        simp [List.countP_cons, List.countP_append, isUploadCall]
        omega
      · rcases hsendc : api.send with _ | assistantMessage
        · simp only [handleSubmitTrace, if_neg hgo, hpair, hsendc]
          simp [List.countP_cons, List.countP_append, isUploadCall]
          omega
        · rcases hrefc : api.refresh with _ | refreshed
          · simp only [handleSubmitTrace, if_neg hgo, hpair, hsendc, hrefc]
            simp [List.countP_cons, List.countP_append, isUploadCall]
            omega
          · simp only [handleSubmitTrace, if_neg hgo, hpair, hsendc, hrefc]
            simp [List.countP_cons, List.countP_append, isUploadCall]
            omega
  · intro kq
    by_cases hgo : content.trim = "" ∧ files = []
    · simp [handleSubmitTrace, hgo]
    · have hup := uploadPhase_countUploadAt api files 0 [] [] kq
      rw [if_neg (Nat.not_lt_zero kq)] at hup
      rcases hpair : (uploadPhase api files 0 [] []).2 with _ | ⟨uploadedMetas, fileIds⟩
      · simp only [handleSubmitTrace, if_neg hgo, hpair]
        simp [List.countP_cons, List.countP_append, isUploadCallAt]
        omega
      · rcases hsendc : api.send with _ | assistantMessage
        · simp only [handleSubmitTrace, if_neg hgo, hpair, hsendc]
          simp [List.countP_cons, List.countP_append, isUploadCallAt]
          omega
        · rcases hrefc : api.refresh with _ | refreshed
          · simp only [handleSubmitTrace, if_neg hgo, hpair, hsendc, hrefc]
            simp [List.countP_cons, List.countP_append, isUploadCallAt]
            omega
          · simp only [handleSubmitTrace, if_neg hgo, hpair, hsendc, hrefc]
            simp [List.countP_cons, List.countP_append, isUploadCallAt]
            omega
  · by_cases hgo : content.trim = "" ∧ files = []
    · simp [handleSubmitTrace, hgo]
    · have hup := uploadPhase_no_send api files 0 [] []
      rcases hpair : (uploadPhase api files 0 [] []).2 with _ | ⟨uploadedMetas, fileIds⟩
      · simp only [handleSubmitTrace, if_neg hgo, hpair]
        simp [List.countP_cons, List.countP_append, isSendCall, -List.countP_eq_zero]
        omega
      · rcases hsendc : api.send with _ | assistantMessage
        · simp only [handleSubmitTrace, if_neg hgo, hpair, hsendc]
          simp [List.countP_cons, List.countP_append, isSendCall, -List.countP_eq_zero]
          omega
        · rcases hrefc : api.refresh with _ | refreshed
          · simp only [handleSubmitTrace, if_neg hgo, hpair, hsendc, hrefc]
            simp [List.countP_cons, List.countP_append, isSendCall, -List.countP_eq_zero]
            omega
          · simp only [handleSubmitTrace, if_neg hgo, hpair, hsendc, hrefc]
            simp [List.countP_cons, List.countP_append, isSendCall, -List.countP_eq_zero]
            omega

/-- Witness for C7 at a concrete submission with one attached file and a
rejected `sendMessage` call. -/
theorem submit_no_retry_witness :
    (handleSubmitTrace sampleApiSendFail 1 "hi" [sampleFile] (-5) "t1").countP isUploadCall
      ≤ ([sampleFile] : List ComposerFile).length :=
  (submit_no_retry sampleApiSendFail 1 "hi" [sampleFile] (-5) "t1").1

/-- Merging an update whose `id` field is absent preserves a message's id. -/
theorem applyMessageUpdate_id_none (m : ChatMessage) (u : MessageUpdate) (h : u.id = none) :
    (applyMessageUpdate m u).id = m.id := by
  simp [applyMessageUpdate, h]

/-- Mapping the `updateMessage` merge over messages none of which carry
the target id changes nothing. -/
theorem updList_no_match (mid : Int) (u : MessageUpdate) (l : List ChatMessage)
    (h : ∀ m ∈ l, m.id ≠ mid) :
    l.map (fun msg => if msg.id == mid then applyMessageUpdate msg u else msg) = l :=
  (List.map_congr_left fun m hm => by
    rw [if_neg (by simp [h m hm] : ¬(m.id == mid) = true)]
    rfl).trans (List.map_id l)

/-- Folding the soft-delete marking over `subs`, starting from a store
whose message list is a prefix `P` (id-disjoint from `subs`) followed by
`subs` itself, marks exactly the `subs` part. -/
theorem fold_mark_messages (subs : List ChatMessage) :
    ∀ (P : List ChatMessage) (st : ChatState),
      st.messages = P ++ subs →
      (∀ p ∈ P, ∀ m ∈ subs, p.id ≠ m.id) →
      (subs.map (fun m => m.id)).Nodup →
      (subs.foldl (fun acc m => Store.updateMessage m.id markDeletedUpdate acc) st).messages
        = P ++ subs.map (fun m => applyMessageUpdate m markDeletedUpdate) := by
  induction subs with
  | nil =>
    intro P st hst _ _
    simpa using hst
  | cons m rest ih =>
    intro P st hst hdisj hnodup
    rw [List.foldl_cons]
    have hhead : m.id ∉ rest.map (fun x => x.id) := (List.nodup_cons.mp (by simpa using hnodup)).1
    have hreststep : ∀ p ∈ rest, p.id ≠ m.id := by
      intro p hp heq
      exact hhead (heq ▸ List.mem_map_of_mem (fun x => x.id) hp)
    have hstep : (Store.updateMessage m.id markDeletedUpdate st).messages
        = (P ++ [applyMessageUpdate m markDeletedUpdate]) ++ rest := by
      show st.messages.map
          (fun msg => if msg.id == m.id then applyMessageUpdate msg markDeletedUpdate else msg)
        = (P ++ [applyMessageUpdate m markDeletedUpdate]) ++ rest
      rw [hst, List.map_append, List.map_cons,
        updList_no_match m.id _ P (fun p hp => hdisj p hp m (List.mem_cons_self m rest)),
        if_pos (by simp : (m.id == m.id) = true),
        updList_no_match m.id _ rest hreststep]
      simp
    refine (ih (P ++ [applyMessageUpdate m markDeletedUpdate])
      (Store.updateMessage m.id markDeletedUpdate st) hstep ?_ ?_).trans (by simp)
    · intro p hp m' hm'
      rcases List.mem_append.mp hp with hpP | hpE
      · exact hdisj p hpP m' (List.mem_cons_of_mem m hm')
      · have hpe : p = applyMessageUpdate m markDeletedUpdate := by simpa using hpE
        rw [hpe, applyMessageUpdate_id_none m markDeletedUpdate rfl]
        exact fun heq => hreststep m' hm' heq.symm
    · exact (List.nodup_cons.mp (by simpa using hnodup)).2

/-- C8: a successful save of an edited message (non-empty trimmed
content or a kept attachment, and an actual change) leaves the store
holding the edited message with the trimmed content and edited
attachment list, marks every message positioned after it as deleted, and
appends the assistant message returned by the `updateMessage` API call. -/
theorem messageEdit_save_spec (s : ChatState) (message : ChatMessage)
    (editedContent : String) (editedFiles : List FileMetadata)
    (newAssistantMessage : ChatMessage)
    (hnodup : (s.messages.map (fun m => m.id)).Nodup)
    (hmem : message ∈ s.messages)
    (hfilled : ¬(editedContent.trim = "" ∧ editedFiles = []))
    (hchanged : ¬(editedContent.trim = message.content
      ∧ sameFilesCheck (message.files.getD []) editedFiles = true)) :
    (handleSave s message editedContent editedFiles (some newAssistantMessage)).messages
      = s.messages.take (s.messages.findIdx (fun m => m.id == message.id))
        ++ [applyMessageUpdate message (editSaveUpdate editedContent.trim editedFiles)]
        ++ (s.messages.drop (s.messages.findIdx (fun m => m.id == message.id) + 1)).map
            (fun m => applyMessageUpdate m markDeletedUpdate)
        ++ [newAssistantMessage]
    ∧ (applyMessageUpdate message (editSaveUpdate editedContent.trim editedFiles)).content
        = editedContent.trim
    ∧ (applyMessageUpdate message (editSaveUpdate editedContent.trim editedFiles)).files
        = some editedFiles
    ∧ ∀ m, (applyMessageUpdate m markDeletedUpdate).is_deleted = true := by
  have hex : ∃ x ∈ s.messages, (fun m => m.id == message.id) x = true :=
    ⟨message, hmem, by simp⟩
  have hlt : s.messages.findIdx (fun m => m.id == message.id) < s.messages.length :=
    List.findIdx_lt_length_of_exists hex
  set n := s.messages.findIdx (fun m => m.id == message.id) with hn
  have hgetid : (s.messages.get ⟨n, hlt⟩).id = message.id := by
    have := @List.findIdx_getElem _ (fun m => m.id == message.id) s.messages hlt
    simpa [List.get_eq_getElem] using this
  have hget : s.messages.get ⟨n, hlt⟩ = message :=
    List.inj_on_of_nodup_map hnodup (List.get_mem s.messages n hlt) hmem hgetid
  have hdecomp : s.messages = s.messages.take n ++ message :: s.messages.drop (n + 1) := by
    conv_lhs => rw [← List.take_append_drop n s.messages]
    rw [List.drop_eq_getElem_cons hlt, ← List.get_eq_getElem s.messages ⟨n, hlt⟩, hget]
  have hnodup' : ((s.messages.take n).map (fun m => m.id)).Nodup
      ∧ message.id ∉ (s.messages.drop (n + 1)).map (fun m => m.id)
      ∧ ((s.messages.drop (n + 1)).map (fun m => m.id)).Nodup
      ∧ ∀ a ∈ (s.messages.take n).map (fun m => m.id),
          a ∉ message.id :: (s.messages.drop (n + 1)).map (fun m => m.id) := by
    rw [hdecomp] at hnodup
    rw [List.map_append, List.map_cons] at hnodup
    rcases List.nodup_append.mp hnodup with ⟨h1, h2, h3⟩
    rcases List.nodup_cons.mp h2 with ⟨h4, h5⟩
    exact ⟨h1, h4, h5, fun a ha => h3 ha⟩
  have htake_ne : ∀ p ∈ s.messages.take n, p.id ≠ message.id := by
    intro p hp heq
    exact hnodup'.2.2.2 p.id (List.mem_map_of_mem _ hp)
      (heq ▸ List.mem_cons_self _ _)
  have hdrop_ne : ∀ p ∈ s.messages.drop (n + 1), p.id ≠ message.id := by
    intro p hp heq
    exact hnodup'.2.1 (heq ▸ List.mem_map_of_mem (fun m => m.id) hp)
  have hs1 : (Store.updateMessage message.id
        (editSaveUpdate editedContent.trim editedFiles) s).messages
      = (s.messages.take n
          ++ [applyMessageUpdate message (editSaveUpdate editedContent.trim editedFiles)])
        ++ s.messages.drop (n + 1) := by
    show s.messages.map (fun msg => if msg.id == message.id
        then applyMessageUpdate msg (editSaveUpdate editedContent.trim editedFiles) else msg)
      = _
    conv_lhs => rw [hdecomp]
    rw [List.map_append, List.map_cons,
      updList_no_match message.id _ _ htake_ne,
      if_pos (by simp : (message.id == message.id) = true),
      updList_no_match message.id _ _ hdrop_ne]
    simp
  have hdisjP : ∀ p ∈ s.messages.take n
        ++ [applyMessageUpdate message (editSaveUpdate editedContent.trim editedFiles)],
      ∀ m ∈ s.messages.drop (n + 1), p.id ≠ m.id := by
    intro p hp m hm heq
    rcases List.mem_append.mp hp with hpT | hpE
    · exact hnodup'.2.2.2 p.id (List.mem_map_of_mem _ hpT)
        (heq ▸ List.mem_cons_of_mem _ (List.mem_map_of_mem (fun x => x.id) hm))
    · have hpe : p = applyMessageUpdate message (editSaveUpdate editedContent.trim editedFiles) := by
        simpa using hpE
      rw [hpe, applyMessageUpdate_id_none _ _ rfl] at heq
      exact hdrop_ne m hm heq.symm
  refine ⟨?_, by simp [applyMessageUpdate, editSaveUpdate],
    by simp [applyMessageUpdate, editSaveUpdate],
    fun m => by simp [applyMessageUpdate, markDeletedUpdate]⟩
  simp only [handleSave]
  rw [if_neg hfilled, if_neg hchanged]
  show (Store.addMessage newAssistantMessage _).messages = _
  have hfold := fold_mark_messages (s.messages.drop (n + 1))
    (s.messages.take n
      ++ [applyMessageUpdate message (editSaveUpdate editedContent.trim editedFiles)])
    (Store.updateMessage message.id (editSaveUpdate editedContent.trim editedFiles) s)
    hs1 hdisjP hnodup'.2.2.1
  show ((s.messages.drop (n + 1)).foldl
      (fun acc m => Store.updateMessage m.id markDeletedUpdate acc)
      (Store.updateMessage message.id (editSaveUpdate editedContent.trim editedFiles) s)).messages
      ++ [newAssistantMessage] = _
  rw [hfold]

/-- Witness for C8 at a concrete edit that keeps one attachment. -/
theorem messageEdit_save_spec_witness :
    (handleSave sampleState (sampleMessage 1) "edited" [sampleFileMeta]
        (some sampleAssistant)).messages
      = sampleState.messages.take
          (sampleState.messages.findIdx (fun m => m.id == (sampleMessage 1).id))
        ++ [applyMessageUpdate (sampleMessage 1) (editSaveUpdate "edited".trim [sampleFileMeta])]
        ++ (sampleState.messages.drop
            (sampleState.messages.findIdx (fun m => m.id == (sampleMessage 1).id) + 1)).map
            (fun m => applyMessageUpdate m markDeletedUpdate)
        ++ [sampleAssistant] :=
  (messageEdit_save_spec sampleState (sampleMessage 1) "edited" [sampleFileMeta] sampleAssistant
    (by decide) (by decide)
    (fun h => absurd h.2 (by simp))
    (fun h => absurd h.2 (by decide))).1

/-- Byte values of the literal tag `RIFF`. -/
theorem asciiBytes_RIFF : asciiBytes "RIFF" = [82, 73, 70, 70] := rfl

/-- Byte values of the literal tag `WAVE`. -/
theorem asciiBytes_WAVE : asciiBytes "WAVE" = [87, 65, 86, 69] := rfl

/-- Byte values of the literal tag `fmt ` (with trailing space). -/
theorem asciiBytes_fmt : asciiBytes "fmt " = [102, 109, 116, 32] := rfl

/-- Byte values of the literal tag `data`. -/
theorem asciiBytes_data : asciiBytes "data" = [100, 97, 116, 97] := rfl

/-- The WAV header is exactly 44 bytes. -/
theorem wavHeader_length (c r n : Nat) : (wavHeader c r n).length = 44 := by
  simp [wavHeader, asciiBytes_RIFF, asciiBytes_WAVE, asciiBytes_fmt, asciiBytes_data,
    u16le, u32le]

/-- Length of a `flatMap` over `range` with uniform chunk length. -/
theorem flatMap_uniform_length {β : Type} (f : Nat → List β) (L n : Nat)
    (hL : ∀ x, (f x).length = L) :
    ((List.range n).flatMap f).length = n * L := by
  rw [List.length_flatMap]
  have h1 : (List.range n).map (List.length ∘ f) = List.replicate n L := by
    have h2 : (List.length ∘ f) = fun _ : Nat => L := funext fun x => hL x
    rw [h2, List.map_const']
    rw [List.length_range]
  rw [h1, List.sum_replicate, smul_eq_mul]

/-- Extraction of the `i`-th chunk of a `flatMap` over `range` with
uniform chunk length: dropping `i * L` bytes lands on chunk `i`. -/
theorem flatMap_range_extract {β : Type} (L : Nat) :
    ∀ (i n : Nat) (f : Nat → List β), (∀ x, (f x).length = L) → i < n →
      ∃ rest, ((List.range n).flatMap f).drop (i * L) = f i ++ rest := by
  intro i
  induction i with
  | zero =>
    intro n f hL hn
    rcases n with _ | m
    · omega
    · rw [List.range_succ_eq_map, List.flatMap_cons]
      exact ⟨(List.map Nat.succ (List.range m)).flatMap f, by simp⟩
  | succ i ih =>
    intro n f hL hn
    rcases n with _ | m
    · omega
    · rw [List.range_succ_eq_map, List.flatMap_cons, List.flatMap_map]
      have hdrop : (f 0 ++ (List.range m).flatMap fun a => f (Nat.succ a)).drop ((i + 1) * L)
          = ((List.range m).flatMap fun a => f (Nat.succ a)).drop (i * L) := by
        rw [show (i + 1) * L = L + i * L by ring, ← List.drop_drop, ← hL 0, List.drop_left]
      rw [hdrop]
      rcases ih m (fun a => f (Nat.succ a)) (fun x => hL _) (by omega) with ⟨rest, hrest⟩
      exact ⟨rest, hrest⟩

set_option maxHeartbeats 1600000 in
/-- C3: `audioBufferToWav` produces exactly `44 + 2*c*n` bytes; the
header spells `RIFF`/`WAVE`/`fmt `/`data` and declares PCM format 1,
16 bits per sample, `c` channels, sample rate `r`, byte rate `2*c*r`,
block align `2*c` and data length `2*c*n`, all little-endian; and the
data section holds, frame by frame and channel-interleaved, each sample
clamped to `[-1, 1]`, scaled by `0x8000` (negative) or `0x7fff`
(non-negative), truncated, as a signed 16-bit little-endian integer. -/
theorem audioBufferToWav_spec (ab : AudioBuffer) :
    (audioBufferToWav ab).length = 44 + 2 * ab.numberOfChannels * ab.length
    ∧ (audioBufferToWav ab).take 4 = asciiBytes "RIFF"
    ∧ ((audioBufferToWav ab).drop 8).take 4 = asciiBytes "WAVE"
    ∧ ((audioBufferToWav ab).drop 12).take 4 = asciiBytes "fmt "
    ∧ ((audioBufferToWav ab).drop 20).take 2 = u16le 1
    ∧ ((audioBufferToWav ab).drop 22).take 2 = u16le ab.numberOfChannels
    ∧ ((audioBufferToWav ab).drop 24).take 4 = u32le ab.sampleRate
    ∧ ((audioBufferToWav ab).drop 28).take 4
        = u32le (2 * ab.numberOfChannels * ab.sampleRate)
    ∧ ((audioBufferToWav ab).drop 32).take 2 = u16le (2 * ab.numberOfChannels)
    ∧ ((audioBufferToWav ab).drop 34).take 2 = u16le 16
    ∧ ((audioBufferToWav ab).drop 36).take 4 = asciiBytes "data"
    ∧ ((audioBufferToWav ab).drop 40).take 4
        = u32le (2 * ab.numberOfChannels * ab.length)
    ∧ ∀ i < ab.length, ∀ ch < ab.numberOfChannels,
        ((audioBufferToWav ab).drop (44 + 2 * (i * ab.numberOfChannels + ch))).take 2
          = u16le ((sampleToPcm16 (ab.channelData ch i) % 65536).toNat) := by
  refine ⟨?_, rfl, rfl, rfl, rfl, rfl, rfl, ?_, ?_, rfl, rfl, ?_, ?_⟩
  · rw [audioBufferToWav, List.length_append, wavHeader_length]
    have hinner : ∀ j : Nat,
        ((List.range ab.numberOfChannels).flatMap
          (fun channel => int16le (sampleToPcm16 (ab.channelData channel j)))).length
        = ab.numberOfChannels * 2 :=
      fun j => flatMap_uniform_length _ 2 _ (fun _ => rfl)
    rw [flatMap_uniform_length _ (ab.numberOfChannels * 2) _ hinner]
    ring
  · rw [show 2 * ab.numberOfChannels * ab.sampleRate
      = ab.sampleRate * (ab.numberOfChannels * 2) by ring]
    rfl
  · rw [show 2 * ab.numberOfChannels = ab.numberOfChannels * 2 by ring]
    rfl
  · rw [show 2 * ab.numberOfChannels * ab.length
      = ab.length * (ab.numberOfChannels * 2) by ring]
    rfl
  · intro i hi ch hch
    have hF : ∀ j : Nat,
        ((List.range ab.numberOfChannels).flatMap
          (fun channel => int16le (sampleToPcm16 (ab.channelData channel j)))).length
        = ab.numberOfChannels * 2 :=
      fun j => flatMap_uniform_length _ 2 _ (fun _ => rfl)
    obtain ⟨rest, hrest⟩ := flatMap_range_extract (ab.numberOfChannels * 2) i ab.length
      (fun j => (List.range ab.numberOfChannels).flatMap
        (fun channel => int16le (sampleToPcm16 (ab.channelData channel j)))) hF hi
    obtain ⟨rest2, hrest2⟩ := flatMap_range_extract 2 ch ab.numberOfChannels
      (fun channel => int16le (sampleToPcm16 (ab.channelData channel i))) (fun _ => rfl) hch
    rw [audioBufferToWav]
    rw [show 44 + 2 * (i * ab.numberOfChannels + ch)
      = 44 + (i * (ab.numberOfChannels * 2) + ch * 2) by ring]
    rw [← List.drop_drop, ← wavHeader_length ab.numberOfChannels ab.sampleRate ab.length,
      List.drop_left]
    rw [← List.drop_drop, hrest]
    rw [List.drop_append_of_le_length (by rw [hF i]; exact Nat.mul_le_mul_right 2 hch.le)]
    rw [hrest2, List.append_assoc]
    rw [show (2 : Nat)
      = (int16le (sampleToPcm16 (ab.channelData ch i))).length from rfl, List.take_left]
    rfl

/-- Witness for C3 at a one-channel, one-frame buffer: the first data
chunk is the encoded sample at frame 0, channel 0. -/
theorem audioBufferToWav_spec_witness :
    ((audioBufferToWav sampleAudio).drop
        (44 + 2 * (0 * sampleAudio.numberOfChannels + 0))).take 2
      = u16le ((sampleToPcm16 (sampleAudio.channelData 0 0) % 65536).toNat) :=
  (audioBufferToWav_spec sampleAudio).2.2.2.2.2.2.2.2.2.2.2.2
    0 (by norm_num [sampleAudio]) 0 (by norm_num [sampleAudio])

/-- C5 counterexample: the second `ComposerControls` temperature handler
stores and persists the raw parsed value; the slider position 15 of the
`min=0 max=2 step=0.1` control yields 1.5, which exceeds 1. -/
theorem temperature_cex :
    composerTemperatureRaw (rangeInputValue 0 (1/10) 15) = 3/2
    ∧ ¬ composerTemperatureRaw (rangeInputValue 0 (1/10) 15) ≤ 1
    ∧ rangeInputValue 0 (1/10) 15 ≤ 2 := by
  refine ⟨?_, ?_, ?_⟩ <;> norm_num [composerTemperatureRaw, rangeInputValue]

/-- C5 (amended): the `ChatSettings` panel and the first
`ComposerControls` variant clamp every temperature input into `[0, 1]`;
the second `ComposerControls` variant passes the parsed value through
unchanged. -/
theorem temperature_controls_spec (v : ℚ) :
    0 ≤ chatSettingsTemperature v ∧ chatSettingsTemperature v ≤ 1
    ∧ 0 ≤ composerTemperatureClamped v ∧ composerTemperatureClamped v ≤ 1
    ∧ composerTemperatureRaw v = v := by
  refine ⟨?_, ?_, ?_, ?_, rfl⟩ <;>
    simp only [chatSettingsTemperature, composerTemperatureClamped] <;>
    [exact le_min zero_le_one (le_max_left 0 v);
     exact min_le_left 1 _;
     exact le_min zero_le_one (le_max_left 0 v);
     exact min_le_left 1 _]

/-- C6: with loading finished, the history view renders exactly the
non-soft-deleted messages in stored order; the empty-state shows exactly
when that filtered list is empty; and a soft-deleted message renders as
nothing. -/
theorem messageList_spec (messages : List ChatMessage) :
    (renderMessageList false messages = .empty
      ↔ messages.filter (fun m => m.is_deleted = false) = [])
    ∧ (∀ visible, renderMessageList false messages = .items visible →
        visible = messages.filter (fun m => m.is_deleted = false)
        ∧ ∀ m ∈ visible, m.is_deleted = false)
    ∧ (messages.filter (fun m => m.is_deleted = false) ≠ [] →
        renderMessageList false messages
          = .items (messages.filter (fun m => m.is_deleted = false)))
    ∧ ∀ m, m.is_deleted = true → renderMessageItem m = none := by
  have hren : renderMessageList false messages
      = if (messages.filter (fun m => m.is_deleted = false)).isEmpty
        then .empty
        else .items (messages.filter (fun m => m.is_deleted = false)) := by
    simp only [renderMessageList, filter_not_deleted, if_neg Bool.false_ne_true]
  refine ⟨?_, ?_, ?_, ?_⟩
  · rw [hren]
    by_cases h : (messages.filter (fun m => m.is_deleted = false)).isEmpty
    · rw [if_pos h]
      simpa [List.isEmpty_iff] using h
    · rw [if_neg h]
      simp only [List.isEmpty_iff] at h
      exact iff_of_false (by simp) h
  · intro visible hv
    rw [hren] at hv
    by_cases h : (messages.filter (fun m => m.is_deleted = false)).isEmpty
    · rw [if_pos h] at hv
      exact absurd hv (by simp)
    · rw [if_neg h] at hv
      have hv' : visible = messages.filter (fun m => m.is_deleted = false) := by
        have := hv
        simp only [MessageListView.items.injEq] at this
        exact this.symm
      refine ⟨hv', ?_⟩
      intro m hm
      rw [hv'] at hm
      simpa using (List.mem_filter.mp hm).2
  · intro h
    rw [hren, if_neg (by simpa [List.isEmpty_iff] using h)]
  · intro m hm
    simp [renderMessageItem, hm]

/-- Witness for C6: a two-message list with one deleted message renders
the filtered list. -/
theorem messageList_spec_witness :
    renderMessageList false [sampleMessage 1, { sampleMessage 2 with is_deleted := true }]
      = .items ([sampleMessage 1, { sampleMessage 2 with is_deleted := true }].filter
          (fun m => m.is_deleted = false)) :=
  (messageList_spec [sampleMessage 1, { sampleMessage 2 with is_deleted := true }]).2.2.1
    (by decide)

/-- C4: the optimistic id (memoized `-Date.now()` plus a random offset
below 1000) is strictly negative, therefore distinct from every positive
server-assigned id, and rolling back by that id removes exactly the
optimistic message from a store whose other messages carry positive ids. -/
theorem tempId_spec (now offset : Nat) (hnow : 1000 ≤ now) (hoff : offset < 1000) :
    mkTempId now offset < 0
    ∧ (∀ serverId : Int, 0 < serverId → mkTempId now offset ≠ serverId)
    ∧ ∀ (s : ChatState) (opt : ChatMessage), opt.id = mkTempId now offset →
        (∀ m ∈ s.messages, 0 < m.id) →
        (Store.removeMessage (mkTempId now offset) (Store.addMessage opt s)).messages
          = s.messages := by
  have hofflt : (offset : Int) < (now : Int) := by exact_mod_cast hoff.trans_le hnow
  have hneg : mkTempId now offset < 0 := by
    unfold mkTempId nextTempId
    omega
  refine ⟨hneg, fun sid hsid => by omega, ?_⟩
  intro s opt hopt hpos
  show ((s.messages ++ [opt]).filter (fun m => m.id != mkTempId now offset)) = s.messages
  rw [List.filter_append]
  have h1 : s.messages.filter (fun m => m.id != mkTempId now offset) = s.messages :=
    filter_ne_id_of_fresh _ _ fun m hm => by have := hpos m hm; omega
  have h2 : [opt].filter (fun m => m.id != mkTempId now offset) = [] := by
    simp [List.filter, hopt]
  rw [h1, h2, List.append_nil]

/-- C1: when a submission proceeds (non-empty trimmed content or an
attached file) and a file upload or the `sendMessage` call is rejected,
the catch handler's `removeMessage(tempId)` restores the message list to
exactly its pre-submission value, provided no pre-existing message
carries the temporary id. -/
theorem submit_failure_rollback (api : ApiBehavior) (chatId : Int) (content : String)
    (files : List ComposerFile) (tempId : Int) (nowIso : String) (s : ChatState)
    (hgo : ¬(content.trim = "" ∧ files = []))
    (hfail : (∃ k < files.length, api.upload k = none)
      ∨ ((∀ k < files.length, api.upload k ≠ none) ∧ api.send = none))
    (hid : ∀ m ∈ s.messages, m.id ≠ tempId) :
    (handleSubmitRun api chatId content files tempId nowIso s).messages = s.messages := by
  have hopt : (optimisticUserOf chatId tempId content files nowIso).id = tempId := rfl
  rcases hfail with ⟨j, hj, hnone⟩ | ⟨hall, hsend⟩
  · have h2 : (uploadPhase api files 0 [] []).2 = none :=
      (uploadPhase_isNone_iff api files 0 [] []).mpr ⟨j, hj, by simpa using hnone⟩
    simp only [handleSubmitRun, handleSubmitTrace, if_neg hgo, h2]
    rw [runTrace_cons, runTrace_cons, runTrace_append, runTrace_uploadPhase]
    exact rollback_core s _ tempId hopt hid
  · have h2 : (uploadPhase api files 0 [] []).2 ≠ none := by
      intro hcontra
      rw [uploadPhase_isNone_iff] at hcontra
      rcases hcontra with ⟨j, hj, hnone⟩
      exact hall j hj (by simpa using hnone)
    rcases Option.ne_none_iff_exists'.mp h2 with ⟨⟨metas, ids⟩, hpair⟩
    simp only [handleSubmitRun, handleSubmitTrace, if_neg hgo, hpair, hsend]
    rw [runTrace_cons, runTrace_cons, runTrace_append, runTrace_uploadPhase]
    rw [runTrace_cons, runTrace_cons]
    exact rollback_core s _ tempId hopt hid

/-- Witness for C1: a concrete submission whose `sendMessage` call is
rejected leaves the sample store's message list unchanged. -/
theorem submit_failure_rollback_witness :
    (handleSubmitRun sampleApiSendFail 1 "hi" [sampleFile] (-5) "t1" sampleState).messages
      = sampleState.messages :=
  submit_failure_rollback sampleApiSendFail 1 "hi" [sampleFile] (-5) "t1" sampleState
    (fun h => absurd h.2 (by simp))
    (Or.inr ⟨fun k _ => by simp [sampleApiSendFail], rfl⟩)
    (by decide)

/-- Witness for C4 at `Date.now() = 1700000000000`, offset 999. -/
theorem tempId_spec_witness :
    (Store.removeMessage (mkTempId 1700000000000 999)
      (Store.addMessage
        (optimisticUserOf 1 (mkTempId 1700000000000 999) "hi" [] "t1") sampleState)).messages
      = sampleState.messages :=
  (tempId_spec 1700000000000 999 (by norm_num) (by norm_num)).2.2 sampleState _ rfl (by decide)

end PetCare
